import Mathlib

/-!
# Claursor: the action-exchange protocol

A shallow embedding of the two polling loops of the repository:

* `src/vscode-extension/extension.js` : the editor-side consumer
  (`pollForActions`, `processAction` and the seven handlers);
* `src/lib/node/index.js` : the client-side producer (class `Claursor`).

JavaScript code that talks to the outside world (the host editor, `fetch`,
timers, the console) is embedded as a program of a small interaction monad:
every outside call is a node of the program, an environment answers the calls,
and running a program yields its outcome together with the trace of the calls
it made.
-/

namespace Claursor

/-! ## JavaScript values -/

/-- A JavaScript `Error`, carried by its `message`. -/
structure JsError where
  message : String
deriving DecidableEq, Repr

/-- Parsed JSON data (with `undefined` for an absent property).  A number is
carried by its canonical rendering (what `String(n)` gives), which identifies
the number and is all the code looks at. -/
inductive JsVal where
  | undefined
  | null
  | bool (b : Bool)
  | num (rendering : String)
  | str (s : String)
  | arr (items : List JsVal)
  | obj (props : List (String × JsVal))
deriving Repr

/-- JavaScript truthiness (`!v` is its negation): `undefined`, `null`,
`false`, `0` and the empty string are falsy, everything else, every array and
object included, is truthy. -/
def JsVal.truthy : JsVal → Bool
  | .undefined => false
  | .null => false
  | .bool b => b
  | .num r => r != "0"
  | .str s => s != ""
  | .arr _ => true
  | .obj _ => true

/-- Property read `v.key`.  Reading a property of `null` or `undefined` throws
a `TypeError`; an object gives the property or `undefined`; the other values
have no property of the names the code reads (`project_root`, `success`,
`data`, ...), so they give `undefined`. -/
def JsVal.getProp (v : JsVal) (key : String) : Except JsError JsVal :=
  match v with
  | .undefined =>
      .error ⟨"Cannot read properties of undefined (reading '" ++ key ++ "')"⟩
  | .null =>
      .error ⟨"Cannot read properties of null (reading '" ++ key ++ "')"⟩
  | .obj props => .ok ((props.lookup key).getD .undefined)
  | _ => .ok .undefined

/-- Strict inequality with `null`: `v !== null`. -/
def JsVal.notNull : JsVal → Bool
  | .null => false
  | _ => true

mutual
/-- The string a template literal puts in for a JSON value: `String(v)`.  An
array is its items joined by commas; an object is `[object Object]`, unless it
has a property of its own named `toString`, which hides the inherited method
and makes the conversion throw a `TypeError`. -/
def JsVal.toJsString : JsVal → Except JsError String
  | .undefined => .ok "undefined"
  | .null => .ok "null"
  | .bool true => .ok "true"
  | .bool false => .ok "false"
  | .num r => .ok r
  | .str s => .ok s
  | .arr items => JsVal.joinItems items
  | .obj props =>
      if props.any (fun p => p.1 == "toString") then
        .error ⟨"Cannot convert object to primitive value"⟩
      else
        .ok "[object Object]"
termination_by structural v => v
/-- The items of an array joined by commas (`Array.prototype.join`): `null`
and `undefined` items give the empty string. -/
def JsVal.joinItems : List JsVal → Except JsError String
  | [] => .ok ""
  | x :: rest =>
      let first :=
        match x with
        | .undefined => .ok ""
        | .null => .ok ""
        | v => JsVal.toJsString v
      match rest with
      | [] => first
      | _ :: _ =>
          match first, JsVal.joinItems rest with
          | .ok a, .ok b => .ok (a ++ "," ++ b)
          | .error e, _ => .error e
          | _, .error e => .error e
termination_by structural items => items
end

/-! ## Programs that call the outside world -/

/-- A program over a signature of outside calls: `C` is the type of calls and
`R c` the type of what call `c` gives back.  A program returns, throws, or
makes a call and goes on with what the call gave (a value, or an error that
was thrown or with which the awaited promise rejected). -/
inductive Prog (C : Type) (R : C → Type) (α : Type) where
  | ret (a : α)
  | throw (e : JsError)
  | call (c : C) (k : Except JsError (R c) → Prog C R α)

namespace Prog

variable {C : Type} {R : C → Type} {α β : Type}

/-- Sequencing: run `p`, then `f` on its value; a throw of `p` skips `f`. -/
def bind : Prog C R α → (α → Prog C R β) → Prog C R β
  | .ret a, f => f a
  | .throw e, _ => .throw e
  | .call c k, f => .call c (fun o => bind (k o) f)

/-- The `try { p } catch (error) { h error }` statement. -/
def tryCatch : Prog C R α → (JsError → Prog C R α) → Prog C R α
  | .ret a, _ => .ret a
  | .throw e, h => h e
  | .call c k, h => .call c (fun o => tryCatch (k o) h)

instance : Monad (Prog C R) where
  pure := .ret
  bind := bind

instance : MonadExcept JsError (Prog C R) where
  throw := .throw
  tryCatch := tryCatch

/-- Make the call `c` and wait for it: its value, or its error thrown. -/
def await (c : C) : Prog C R (R c) :=
  .call c (fun o =>
    match o with
    | .ok v => .ret v
    | .error e => .throw e)

/-- Make the call `c` for its effect, whatever it gives back. -/
def perform (c : C) : Prog C R Unit :=
  .call c (fun _ => .ret ())

/-- Go on with the value of a pure computation, or throw its error. -/
def ofExcept : Except JsError α → Prog C R α
  | .ok a => .ret a
  | .error e => .throw e

end Prog

/-- One entry of a trace: the call made, and the error it raised if it did. -/
structure Event (C : Type) where
  call : C
  error : Option JsError

/-- The error of an outcome, if it is one. -/
def outcomeError {ρ : Type} : Except JsError ρ → Option JsError
  | .ok _ => none
  | .error e => some e

/-- An environment answers every call, and may look at everything that
happened before to do so. -/
abbrev Env (C : Type) (R : C → Type) := List (Event C) → (c : C) → Except JsError (R c)

/-- Run a program in an environment after the history `tr`: the outcome of the
program and the calls it made, in order.  Each call is answered by the
environment from the history up to it. -/
def Prog.run {C : Type} {R : C → Type} {α : Type} (env : Env C R) :
    Prog C R α → List (Event C) → Except JsError α × List (Event C)
  | .ret a, _ => (.ok a, [])
  | .throw e, _ => (.error e, [])
  | .call c k, tr =>
      let event : Event C := ⟨c, outcomeError (env tr c)⟩
      let rest := Prog.run env (k (env tr c)) (tr ++ [event])
      (rest.1, event :: rest.2)

/-! ## The editor-side consumer (`src/vscode-extension/extension.js`) -/

namespace Extension

/-- The `BRIDGE_SERVER_URL` constant. -/
def BRIDGE_SERVER_URL : String := "http://localhost:8000"

/-- The `POLL_INTERVAL` constant, in ms. -/
def POLL_INTERVAL : Nat := 1000

/-- An action as the poll delivers it: an object of parsed JSON, by the
properties the code reads.  Every property is any JSON data, `id` and `type`
included (nothing checks them before `processAction` reads them), and
`undefined` when the action does not have it. -/
structure Action where
  id : JsVal
  type : JsVal
  path : JsVal := .undefined
  edits : JsVal := .undefined
  command : JsVal := .undefined
  args : JsVal := .undefined
  message : JsVal := .undefined
  messageType : JsVal := .undefined
  options : JsVal := .undefined
  text : JsVal := .undefined

/-- A `vscode.Position`. -/
structure Position where
  line : Nat
  character : Nat
deriving DecidableEq, Repr

/-- A `vscode.Selection`: its `start` and `end`. -/
structure Selection where
  start : Position
  stop : Position
deriving DecidableEq, Repr

/-- A `vscode.TextDocument`, by the properties the code reads. -/
structure TextDocument where
  fileName : String
  languageId : String
deriving DecidableEq, Repr

/-- A `vscode.TextEditor`, by the properties the code reads. -/
structure TextEditor where
  document : TextDocument
  selection : Selection
deriving DecidableEq, Repr

/-- What a host command gave back.  It is opaque to the bridge, which only
hands it to `JSON.stringify`: either data that serialises, or a value on which
`JSON.stringify` throws a `TypeError` with the given message (a circular
structure, a `BigInt`). -/
inductive HostValue where
  | data (v : JsVal)
  | unserialisable (message : String)

/-- The `range` object of the `getSelection` payload. -/
structure SelectionRange where
  startLine : Nat
  startCharacter : Nat
  endLine : Nat
  endCharacter : Nat
deriving DecidableEq, Repr

/-- The `data` of a Result: `null`, or the payload a handler built. -/
inductive ResultData where
  | null
  | path (path : JsVal)
  | fileContent (path : JsVal) (content : String) (language : String)
  | commandResult (result : HostValue)
  | messageResponse (response : JsVal)
  | selection (text : String) (range : SelectionRange) (fileName : String)
      (languageId : String)

/-- The `result` object of `processAction`; `error` is `null` (`none`) or a
string. -/
structure Result where
  action_id : JsVal
  success : Bool
  error : Option String
  data : ResultData

/-- The capabilities of the host editor that the handlers use.  The arguments
are the values the code passes; spreading `options` and `args` into the
argument list and running the `editBuilder` callback over the edits happen
inside the call. -/
inductive HostCall where
  /-- `vscode.workspace.openTextDocument(path)` -/
  | openTextDocument (path : JsVal)
  /-- `vscode.window.showTextDocument(document)` -/
  | showTextDocument (document : TextDocument)
  /-- `editor.edit(...)` replacing each range of `edits` by its text -/
  | applyEdits (editor : TextEditor) (edits : JsVal)
  /-- `editor.edit(...)` replacing `editor.selection` by `text` -/
  | replaceSelection (editor : TextEditor) (text : JsVal)
  /-- `document.getText()` or `document.getText(selection)` -/
  | getText (document : TextDocument) (range : Option Selection)
  /-- `vscode.commands.executeCommand(command, ...args)` -/
  | executeCommand (command : JsVal) (args : JsVal)
  /-- `vscode.window.showInformationMessage(message, ...options)` -/
  | showInformationMessage (message : JsVal) (options : JsVal)
  /-- `vscode.window.showWarningMessage(message, ...options)` -/
  | showWarningMessage (message : JsVal) (options : JsVal)
  /-- `vscode.window.showErrorMessage(message, ...options)` -/
  | showErrorMessage (message : JsVal) (options : JsVal)
  /-- `vscode.window.activeTextEditor` -/
  | activeTextEditor

/-- What a host capability gives back. -/
def HostCall.Reply : HostCall → Type
  | .openTextDocument _ => TextDocument
  | .showTextDocument _ => TextEditor
  | .applyEdits _ _ => Bool
  | .replaceSelection _ _ => Bool
  | .getText _ _ => String
  | .executeCommand _ _ => HostValue
  | .showInformationMessage _ _ => JsVal
  | .showWarningMessage _ _ => JsVal
  | .showErrorMessage _ _ => JsVal
  | .activeTextEditor => Option TextEditor

/-- A `fetch` of the extension: the URL and the `method`, `headers` and `body`
of its options.  The only body the extension's action loop sends is a
serialised Result. -/
structure Request where
  url : String
  method : String := "GET"
  headers : List (String × String) := []
  body : Option Result := none

/-- The parsed body of `GET /api/actions`, by the one property the code reads:
`data.actions`, `none` when it is absent (or otherwise falsy). -/
structure ActionsData where
  actions : Option (List Action)

/-- A `fetch` response: `ok`, `statusText` and what `response.json()` gives
(the parsed body, or the error it rejects with). -/
structure Response where
  ok : Bool
  statusText : String := ""
  json : Except JsError ActionsData := .ok ⟨none⟩

/-- The outside calls of the extension. -/
inductive Call where
  | host (c : HostCall)
  | fetch (req : Request)
  /-- `console.log(...)` and `console.error(...)` with the rendered arguments -/
  | console (level : String) (args : List String)
  /-- The call `processAction(action)` that `pollForActions` makes without
  awaiting it -/
  | processAction (action : Action)

/-- What an outside call of the extension gives back. -/
def Call.Reply : Call → Type
  | .host c => c.Reply
  | .fetch _ => Response
  | .console _ _ => Unit
  | .processAction _ => Unit

/-- Programs of the extension. -/
abbrev Ext := Prog Call Call.Reply

/-- Use a host capability. -/
def host (c : HostCall) : Ext c.Reply := @Prog.await Call Call.Reply (.host c)

/-- The awaited call `fetch(url, options)`. -/
def fetch (req : Request) : Ext Response := @Prog.await Call Call.Reply (.fetch req)

/-- The call `console.log(...)`. -/
def consoleLog (args : List String) : Ext Unit :=
  @Prog.perform Call Call.Reply (.console "log" args)

/-- The call `console.error(...)`. -/
def consoleError (args : List String) : Ext Unit :=
  @Prog.perform Call Call.Reply (.console "error" args)

/-- The awaited call `response.json()`. -/
def Response.getJson (response : Response) : Ext ActionsData :=
  match response.json with
  | .ok data => pure data
  | .error e => throw e

/-- The call `JSON.stringify(result)`: it throws on a command result that does
not serialise, the one part of a Result that is not plain data. -/
def jsonStringify (result : Result) : Ext Result :=
  match result.data with
  | .commandResult (.unserialisable message) => throw ⟨message⟩
  | _ => pure result

/-- The expression `v || []`. -/
def orEmptyArray (v : JsVal) : JsVal :=
  if v.truthy then v else .arr []

/-- Handle the openFile action. -/
def handleOpenFile (action : Action) (result : Result) : Ext Result :=
  if !action.path.truthy then
    pure { result with error := some "Missing file path" }
  else
    tryCatch
      (do
        let document ← host (.openTextDocument action.path)
        let _ ← host (.showTextDocument document)
        pure { result with success := true, data := .path action.path })
      (fun error =>
        pure { result with error := some ("Error opening file: " ++ error.message) })

/-- Handle the editFile action. -/
def handleEditFile (action : Action) (result : Result) : Ext Result :=
  if !action.path.truthy || !action.edits.truthy then
    pure { result with error := some "Missing path or edits" }
  else
    tryCatch
      (do
        let document ← host (.openTextDocument action.path)
        let editor ← host (.showTextDocument document)
        let _ ← host (.applyEdits editor action.edits)
        pure { result with success := true, data := .path action.path })
      (fun error =>
        pure { result with error := some ("Error editing file: " ++ error.message) })

/-- Handle the getFileContent action. -/
def handleGetFileContent (action : Action) (result : Result) : Ext Result :=
  if !action.path.truthy then
    pure { result with error := some "Missing file path" }
  else
    tryCatch
      (do
        let document ← host (.openTextDocument action.path)
        let content ← host (.getText document none)
        pure { result with
          success := true,
          data := .fileContent action.path content document.languageId })
      (fun error =>
        pure { result with
          error := some ("Error getting file content: " ++ error.message) })

/-- Handle the executeCommand action. -/
def handleExecuteCommand (action : Action) (result : Result) : Ext Result :=
  if !action.command.truthy then
    pure { result with error := some "Missing command" }
  else
    tryCatch
      (do
        let commandResult ←
          host (.executeCommand action.command (orEmptyArray action.args))
        pure { result with success := true, data := .commandResult commandResult })
      (fun error =>
        pure { result with error := some ("Error executing command: " ++ error.message) })

/-- Handle the showMessage action. -/
def handleShowMessage (action : Action) (result : Result) : Ext Result :=
  if !action.message.truthy then
    pure { result with error := some "Missing message" }
  else
    tryCatch
      (do
        let options := orEmptyArray action.options
        let response ←
          match action.messageType with
          | .str "info" => host (.showInformationMessage action.message options)
          | .str "warning" => host (.showWarningMessage action.message options)
          | .str "error" => host (.showErrorMessage action.message options)
          | _ => host (.showInformationMessage action.message options)
        pure { result with success := true, data := .messageResponse response })
      (fun error =>
        pure { result with error := some ("Error showing message: " ++ error.message) })

/-- Handle the getSelection action. -/
def handleGetSelection (_action : Action) (result : Result) : Ext Result :=
  tryCatch
    (do
      let editor ← host .activeTextEditor
      match editor with
      | none => pure { result with error := some "No active editor" }
      | some editor =>
          let selection := editor.selection
          do
            let text ← host (.getText editor.document (some selection))
            pure { result with
              success := true,
              data := .selection text
                { startLine := selection.start.line,
                  startCharacter := selection.start.character,
                  endLine := selection.stop.line,
                  endCharacter := selection.stop.character }
                editor.document.fileName editor.document.languageId })
    (fun error =>
      pure { result with error := some ("Error getting selection: " ++ error.message) })

/-- Handle the replaceSelection action. -/
def handleReplaceSelection (action : Action) (result : Result) : Ext Result :=
  if !action.text.truthy then
    pure { result with error := some "Missing text" }
  else
    tryCatch
      (do
        let editor ← host .activeTextEditor
        match editor with
        | none => pure { result with error := some "No active editor" }
        | some editor =>
            do
              let _ ← host (.replaceSelection editor action.text)
              pure { result with success := true })
      (fun error =>
        pure { result with
          error := some ("Error replacing selection: " ++ error.message) })

/-- The `result` object as `processAction` sets it up. -/
def initialResult (action : Action) : Result :=
  { action_id := action.id, success := false, error := none, data := .null }

/-- The first `try`/`catch` of `processAction`: dispatch on `action.type`, and
turn an exception into a failure Result.  The `switch` compares with `===`, so
only a string selects a handler. -/
def dispatch (action : Action) (result : Result) : Ext Result :=
  tryCatch
    (match action.type with
      | .str "openFile" => handleOpenFile action result
      | .str "editFile" => handleEditFile action result
      | .str "getFileContent" => handleGetFileContent action result
      | .str "executeCommand" => handleExecuteCommand action result
      | .str "showMessage" => handleShowMessage action result
      | .str "getSelection" => handleGetSelection action result
      | .str "replaceSelection" => handleReplaceSelection action result
      | _ => do
          let type ← Prog.ofExcept action.type.toJsString
          pure { result with error := some ("Unknown action type: " ++ type) })
    (fun error => do
      let type ← Prog.ofExcept action.type.toJsString
      consoleError ["Error processing action " ++ type ++ ":", error.message]
      pure { result with success := false, error := some error.message })

/-- The first half of `processAction` (up to the end of its first
`try`/`catch`): log, set up the Result, and dispatch.  The template literal of
the log line renders `action.type` before the `try` is entered, so an
exception of that rendering is not caught. -/
def processActionResult (action : Action) : Ext Result := do
  let type ← Prog.ofExcept action.type.toJsString
  consoleLog ["Processing action: " ++ type]
  let result := initialResult action
  dispatch action result

/-- The URL of the result endpoint of an action: the template literal renders
`action.id`, which may throw. -/
def resultUrl (action : Action) : Except JsError String := do
  let id ← action.id.toJsString
  pure (BRIDGE_SERVER_URL ++ "/api/actions/" ++ id ++ "/result")

/-- The second half of `processAction`: send the result back to the bridge
server.  The arguments of `fetch` are evaluated inside the `try`, the URL
first. -/
def sendResult (action : Action) (result : Result) : Ext Unit :=
  tryCatch
    (do
      let url ← Prog.ofExcept (resultUrl action)
      let body ← jsonStringify result
      let response ← fetch
        { url := url,
          method := "POST",
          headers := [("Content-Type", "application/json")],
          body := some body }
      if !response.ok then
        consoleError ["Error sending action result:", response.statusText]
      else
        pure ())
    (fun error => consoleError ["Error sending action result:", error.message])

/-- Process a single action. -/
def processAction (action : Action) : Ext Unit := do
  let result ← processActionResult action
  sendResult action result

/-- Poll the bridge server for actions to execute.  `processAction(action)` is
called without `await`: the call is made and the loop goes on. -/
def pollForActions : Ext Unit :=
  tryCatch
    (do
      let response ← fetch { url := BRIDGE_SERVER_URL ++ "/api/actions" }
      if !response.ok then
        consoleError ["Error polling for actions:", response.statusText]
      else do
        let data ← response.getJson
        match data.actions with
        | some actions =>
            if actions.length > 0 then do
              consoleLog
                ["Received " ++ toString actions.length ++ " actions to execute"]
              actions.forM (fun action =>
                @Prog.perform Call Call.Reply (.processAction action))
            else
              pure ()
        | none => pure ())
    (fun error => consoleError ["Error polling for actions:", error.message])

/-! ### What the claims speak about -/

/-- The action types that have a handler. -/
def knownTypes : List JsVal :=
  [.str "openFile", .str "editFile", .str "getFileContent", .str "executeCommand",
   .str "showMessage", .str "getSelection", .str "replaceSelection"]

/-- The names of the action types that have a handler. -/
def knownTypeNames : List String :=
  ["openFile", "editFile", "getFileContent", "executeCommand", "showMessage",
   "getSelection", "replaceSelection"]

/-- Whether a value is one of the types that have a handler can be computed:
only a string is. -/
instance decideKnownType (v : JsVal) : Decidable (v ∈ knownTypes) :=
  match v with
  | .str s =>
      if h : s ∈ knownTypeNames then
        isTrue (by
          simp only [knownTypeNames, List.mem_cons, List.mem_singleton, List.not_mem_nil,
            or_false] at h
          simp only [knownTypes, List.mem_cons, List.mem_singleton, List.not_mem_nil,
            or_false, JsVal.str.injEq]
          exact h)
      else
        isFalse (by
          simp only [knownTypeNames, List.mem_cons, List.mem_singleton, List.not_mem_nil,
            or_false] at h
          simp only [knownTypes, List.mem_cons, List.mem_singleton, List.not_mem_nil,
            or_false, JsVal.str.injEq]
          exact h)
  | .undefined => isFalse (by simp [knownTypes])
  | .null => isFalse (by simp [knownTypes])
  | .bool _ => isFalse (by simp [knownTypes])
  | .num _ => isFalse (by simp [knownTypes])
  | .arr _ => isFalse (by simp [knownTypes])
  | .obj _ => isFalse (by simp [knownTypes])

/-- The event is a use of a host-editor capability. -/
def isHost (e : Event Call) : Bool :=
  match e.call with
  | .host _ => true
  | _ => false

/-- The requests of the `fetch` calls of a trace, in order. -/
def fetches (evs : List (Event Call)) : List Request :=
  evs.filterMap (fun e =>
    match e.call with
    | .fetch req => some req
    | _ => none)

/-- The actions on which a trace calls `processAction`, in order. -/
def invocations (evs : List (Event Call)) : List Action :=
  evs.filterMap (fun e =>
    match e.call with
    | .processAction action => some action
    | _ => none)

/-- The required field of the action's type is absent: openFile or
getFileContent without path, editFile without path or without edits,
executeCommand without command, showMessage without message, replaceSelection
without text. -/
def RequiredFieldAbsent (action : Action) : Prop :=
  (action.type = .str "openFile" ∧ action.path = .undefined) ∨
  (action.type = .str "getFileContent" ∧ action.path = .undefined) ∨
  (action.type = .str "editFile" ∧ (action.path = .undefined ∨ action.edits = .undefined)) ∨
  (action.type = .str "executeCommand" ∧ action.command = .undefined) ∨
  (action.type = .str "showMessage" ∧ action.message = .undefined) ∨
  (action.type = .str "replaceSelection" ∧ action.text = .undefined)

/-- The text each handler puts before the message of an exception it
caught. -/
def errorPrefix : JsVal → String
  | .str "openFile" => "Error opening file: "
  | .str "editFile" => "Error editing file: "
  | .str "getFileContent" => "Error getting file content: "
  | .str "executeCommand" => "Error executing command: "
  | .str "showMessage" => "Error showing message: "
  | .str "getSelection" => "Error getting selection: "
  | .str "replaceSelection" => "Error replacing selection: "
  | _ => ""

/-- The line `processAction` logs first, for a type that renders as `type`. -/
def processingLine (type : String) : Call :=
  .console "log" ["Processing action: " ++ type]

/-- The rendering of the type of an action as the log line of `processAction`
shows it (the empty string stands in for a type whose rendering throws, for
which there is no log line). -/
def Action.typeName (action : Action) : String :=
  match action.type.toJsString with
  | .ok type => type
  | .error _ => ""

/-- The console event that opens `processAction`. -/
def processingEvent (env : Env Call Call.Reply) (tr : List (Event Call)) (action : Action) :
    Event Call :=
  ⟨processingLine action.typeName, outcomeError (env tr (processingLine action.typeName))⟩

/-- The console event with which `pollForActions` announces the actions. -/
def receivedEvent (env : Env Call Call.Reply) (tr : List (Event Call))
    (actions : List Action) : Event Call :=
  ⟨.console "log" ["Received " ++ toString actions.length ++ " actions to execute"],
    outcomeError (env (tr ++ [⟨.fetch { url := BRIDGE_SERVER_URL ++ "/api/actions" }, none⟩])
      (.console "log" ["Received " ++ toString actions.length ++ " actions to execute"]))⟩

/-- The request that posts a result, for an action whose id renders as `id`. -/
def resultRequest (id : String) (result : Result) : Request :=
  { url := BRIDGE_SERVER_URL ++ "/api/actions/" ++ id ++ "/result",
    method := "POST",
    headers := [("Content-Type", "application/json")],
    body := some result }

/-- How the run of a handler on the initial result ends: it gives a Result
(it never throws), it makes host calls only, and either it succeeds and no
call raised, or it fails on a check of its own and no call raised, or one
call raised and the error is the prefix followed by the message. -/
def HandlerSpec (pre : String) (action : Action)
    (out : Except JsError Result × List (Event Call)) : Prop :=
  ∃ r, out.1 = .ok r ∧ r.action_id = action.id ∧ (∀ e ∈ out.2, isHost e = true) ∧
    ((r.success = true ∧ r.error = none ∧ ∀ e ∈ out.2, e.error = none) ∨
     (r.success = false ∧ r.data = .null ∧ (∀ e ∈ out.2, e.error = none) ∧
        ∃ msg, r.error = some msg) ∨
     (r.success = false ∧ r.data = .null ∧
        ∃ err : JsError, r.error = some (pre ++ err.message) ∧
          (∃ e ∈ out.2, e.error = some err) ∧
          ∀ e ∈ out.2, e.error = none ∨ e.error = some err))

/-! ### Calls that are not awaited -/

/-- The calls whose promise the code awaits: the caller gives control back
until the promise settles.  The reads `vscode.window.activeTextEditor` and
`document.getText(...)` and the console are synchronous, and
`processAction(action)` is called without `await`. -/
def Call.awaited : Call → Bool
  | .host .activeTextEditor => false
  | .host (.getText _ _) => false
  | .host _ => true
  | .fetch _ => true
  | .console _ _ => false
  | .processAction _ => false

/-- Run a program up to its first awaited call: the calls it makes before it
gives control back, the awaited one included (its outcome is not known yet),
and the outcome of the program if it ends without awaiting anything. -/
def start {α : Type} (env : Env Call Call.Reply) :
    Ext α → List (Event Call) → Option (Except JsError α) × List (Event Call)
  | .ret a, _ => (some (.ok a), [])
  | .throw e, _ => (some (.error e), [])
  | .call c k, tr =>
      if c.awaited then
        (none, [⟨c, none⟩])
      else
        let event : Event Call := ⟨c, outcomeError (env tr c)⟩
        let rest := start env (k (env tr c)) (tr ++ [event])
        (rest.1, event :: rest.2)

/-- What the call `processAction(action)` does before it gives control back to
the loop of `pollForActions`: it runs to its first `await`.  Every case of
the switch but the default awaits its handler (`result = await handle...`),
so for a known type the call stops at the first awaited call of the handler,
or at the return of the handler when the handler awaits nothing; for another
type nothing is awaited before the `await fetch(...)` of the result. -/
def processActionStart (env : Env Call Call.Reply) (action : Action)
    (tr : List (Event Call)) : List (Event Call) :=
  match start env (processActionResult action) tr with
  | (some (.ok result), evs) =>
      if action.type ∈ knownTypes then evs
      else evs ++ (start env (sendResult action result) (tr ++ evs)).2
  | (_, evs) => evs

/-- The loop `for (const action of data.actions) { processAction(action); }`:
the calls are made one after the other and none is awaited, so each runs to
its first `await` and then the next call is made. -/
def startEach (env : Env Call Call.Reply) :
    List Action → List (Event Call) → List (Event Call)
  | [], _ => []
  | action :: rest, tr =>
      processActionStart env action tr
        ++ startEach env rest (tr ++ processActionStart env action tr)

/-- The capability with which `handleShowMessage` shows the message of an
action: by its `messageType`, `showInformationMessage` when it is none of
"info", "warning" and "error". -/
def messageCall (action : Action) : HostCall :=
  match action.messageType with
  | .str "warning" => .showWarningMessage action.message (orEmptyArray action.options)
  | .str "error" => .showErrorMessage action.message (orEmptyArray action.options)
  | _ => .showInformationMessage action.message (orEmptyArray action.options)

/-- The read of `vscode.window.activeTextEditor` after the history `tr`, and
then the calls `next` makes on the editor, when there is one. -/
def withActiveEditor (env : Env Call Call.Reply) (tr : List (Event Call))
    (next : TextEditor → List (Event Call)) : List (Event Call) :=
  ⟨.host .activeTextEditor, outcomeError (env tr (.host .activeTextEditor))⟩ ::
    match (env tr (.host .activeTextEditor) : Except JsError (Option TextEditor)) with
    | .ok (some editor) => next editor
    | _ => []

/-- The spread `...(v || [])` goes through: the value is falsy, an array or a
string.  (Another value is not iterable and the spread throws.) -/
def canSpread (v : JsVal) : Bool :=
  match orEmptyArray v with
  | .arr _ => true
  | .str _ => true
  | _ => false

/-- The arguments that the handler of the action spreads into its host call can
be spread: `args` for executeCommand, `options` for showMessage.  The host
calls of the embedding take the spread in; where it throws, the source throws
before the call is made, so what is said of the call that is pending is said
of the actions whose arguments spread. -/
def spreadsArguments (action : Action) : Bool :=
  match action.type with
  | .str "executeCommand" => canSpread action.args
  | .str "showMessage" => canSpread action.options
  | _ => true

/-- The calls the handler of an action has made when `processAction(action)`
gives control back, after the history `tr`, as the statement on the order of
processing has them.  A handler whose check of the action passes has called the first capability that
answers with a promise, and that call is still pending: `openTextDocument` for
openFile, editFile and getFileContent, `executeCommand` for executeCommand,
the message capability for showMessage, and for replaceSelection the edit of
the active editor, after the read of that editor.  The handler of
getSelection has read the active editor and its text, which are not promises.
A handler whose check fails, or that finds no active editor, has made no
further call. -/
def firstCalls (env : Env Call Call.Reply) (action : Action) (tr : List (Event Call)) :
    List (Event Call) :=
  match action.type with
  | .str "openFile" =>
      if action.path.truthy then [⟨.host (.openTextDocument action.path), none⟩] else []
  | .str "editFile" =>
      if action.path.truthy && action.edits.truthy then
        [⟨.host (.openTextDocument action.path), none⟩]
      else []
  | .str "getFileContent" =>
      if action.path.truthy then [⟨.host (.openTextDocument action.path), none⟩] else []
  | .str "executeCommand" =>
      if action.command.truthy then
        [⟨.host (.executeCommand action.command (orEmptyArray action.args)), none⟩]
      else []
  | .str "showMessage" =>
      if action.message.truthy then [⟨.host (messageCall action), none⟩] else []
  | .str "getSelection" =>
      withActiveEditor env tr (fun editor =>
        [⟨.host (.getText editor.document (some editor.selection)),
          outcomeError (env (tr ++ [⟨.host .activeTextEditor, none⟩])
            (.host (.getText editor.document (some editor.selection))))⟩])
  | .str "replaceSelection" =>
      if action.text.truthy then
        withActiveEditor env tr (fun editor =>
          [⟨.host (.replaceSelection editor action.text), none⟩])
      else []
  | _ => []

/-! ### The polling lifecycle -/

/-- A timer of the host, as `setInterval` installs it. -/
structure Timer where
  handle : Nat
  period : Nat
deriving DecidableEq, Repr

/-- The module variables `isPolling` and `pollingInterval` (`none` for `null`),
the timers of the host that are active, the handle the next `setInterval`
gives, the number of calls of `pollForActions` made so far by `startPolling`,
and the console. -/
structure PollingWorld where
  isPolling : Bool := false
  pollingInterval : Option Nat := none
  timers : List Timer := []
  nextHandle : Nat := 1
  polls : Nat := 0
  console : List String := []
deriving DecidableEq, Repr

/-- Start polling the bridge server for actions. -/
def startPolling (w : PollingWorld) : PollingWorld :=
  if w.isPolling then
    w
  else
    let w : PollingWorld := { w with isPolling := true }
    let w : PollingWorld := { w with polls := w.polls + 1 }
    let w : PollingWorld := { w with
      timers := w.timers ++ [Timer.mk w.nextHandle POLL_INTERVAL],
      pollingInterval := some w.nextHandle,
      nextHandle := w.nextHandle + 1 }
    { w with console := w.console ++ ["Started polling for actions"] }

/-- Stop polling the bridge server. -/
def stopPolling (w : PollingWorld) : PollingWorld :=
  if !w.isPolling then
    w
  else
    let w : PollingWorld := { w with isPolling := false }
    let w : PollingWorld :=
      match w.pollingInterval with
      | some timer =>
          { w with
            timers := w.timers.filter (fun t => t.handle != timer),
            pollingInterval := none }
      | none => w
    { w with console := w.console ++ ["Stopped polling for actions"] }

/-- The state of the polling between two calls: while polling, the stored
handle is that of the one active timer; otherwise no timer is active. -/
def PollingInv (w : PollingWorld) : Prop :=
  (w.isPolling = true →
    ∃ timer, w.pollingInterval = some timer ∧ w.timers = [Timer.mk timer POLL_INTERVAL]) ∧
  (w.isPolling = false → w.timers = [] ∧ w.pollingInterval = none)

/-- A call of `startPolling` or of `stopPolling`. -/
inductive PollingOp where
  | start
  | stop
deriving DecidableEq, Repr

/-- Make the calls one after the other. -/
def runOps : List PollingOp → PollingWorld → PollingWorld
  | [], w => w
  | .start :: rest, w => runOps rest (startPolling w)
  | .stop :: rest, w => runOps rest (stopPolling w)

/-- Two openFile actions. -/
def openA : Action := { id := .str "a6", type := .str "openFile", path := .str "/a.txt" }

/-- The second of two openFile actions. -/
def openB : Action := { id := .str "a7", type := .str "openFile", path := .str "/b.txt" }

/-! ### Sample actions and a sample environment -/

/-- An action of a type that has no handler. -/
def flyAction : Action := { id := .str "a1", type := .str "fly" }

/-- An action whose type is an object with a `toString` property of its own,
as the JSON `{"id": "a1", "type": {"toString": 1}}` parses. -/
def oddType : Action := { id := .str "a1", type := .obj [("toString", .num "1")] }

/-- An action whose id is an object with a `toString` property of its own. -/
def oddId : Action := { id := .obj [("toString", .num "1")], type := .str "fly" }

/-- An openFile action without its path. -/
def openNoPath : Action := { id := .str "a2", type := .str "openFile" }

/-- An openFile action for a file that does not exist. -/
def openMissing : Action :=
  { id := .str "a3", type := .str "openFile", path := .str "/missing" }

/-- An executeCommand action. -/
def runCommand : Action :=
  { id := .str "a4", type := .str "executeCommand", command := .str "sample.command" }

/-- A replaceSelection action whose text is the empty string. -/
def emptyReplace : Action :=
  { id := .str "a5", type := .str "replaceSelection", text := .str "" }

/-- An editor with no file to open and no active editor, whose commands give
back a value with a cycle; the bridge answers every request with an ok
response that lists two actions. -/
def sampleEnv : Env Call Call.Reply := fun _ c =>
  match c with
  | .host (.openTextDocument _) => .error ⟨"ENOENT: no such file or directory"⟩
  | .host (.showTextDocument document) => .ok ⟨document, ⟨⟨0, 0⟩, ⟨0, 0⟩⟩⟩
  | .host (.applyEdits _ _) => .ok true
  | .host (.replaceSelection _ _) => .ok true
  | .host (.getText _ _) => .ok ""
  | .host (.executeCommand _ _) =>
      .ok (.unserialisable "Converting circular structure to JSON")
  | .host (.showInformationMessage _ _) => .ok .undefined
  | .host (.showWarningMessage _ _) => .ok .undefined
  | .host (.showErrorMessage _ _) => .ok .undefined
  | .host .activeTextEditor => .ok none
  | .fetch _ => .ok { ok := true, json := .ok ⟨some [flyAction, openMissing]⟩ }
  | .console _ _ => .ok ()
  | .processAction _ => .ok ()

/-- The sample editor, on a bridge that answers every request with an ok
response that lists the one action whose type is an object. -/
def oddTypeEnv : Env Call Call.Reply := fun history c =>
  match c with
  | .fetch _ => .ok { ok := true, json := .ok ⟨some [oddType]⟩ }
  | c => sampleEnv history c

/-- The sample editor, on a bridge that answers every request with an ok
response that lists the two openFile actions. -/
def twoOpenEnv : Env Call Call.Reply := fun history c =>
  match c with
  | .fetch _ => .ok { ok := true, json := .ok ⟨some [openA, openB]⟩ }
  | c => sampleEnv history c

end Extension

/-! ## The client-side producer (`src/lib/node/index.js`) -/

namespace Client

/-- A `fetch` of the library: the URL and the `method`, `headers`, `body` and
`timeout` of its options.  The body is the object handed to
`JSON.stringify`. -/
structure Request where
  url : String
  method : String := "GET"
  headers : List (String × String) := []
  body : Option JsVal := none
  timeout : Option Nat := none

/-- A `fetch` response: `ok` and what `response.json()` gives (the parsed
body, or the error it rejects with). -/
structure Response where
  ok : Bool
  json : Except JsError JsVal := .ok .null

/-- The outside calls of the library. -/
inductive Call where
  | fetch (req : Request)
  /-- The timer wait `new Promise(resolve => setTimeout(resolve, ms))` -/
  | setTimeout (ms : Nat)
  /-- `console.error(...)` with the rendered arguments -/
  | consoleError (args : List String)

/-- What an outside call of the library gives back. -/
def Call.Reply : Call → Type
  | .fetch _ => Response
  | .setTimeout _ => Unit
  | .consoleError _ => Unit

/-- Programs of the library. -/
abbrev Lib := Prog Call Call.Reply

/-- The awaited call `fetch(url, options)`. -/
def fetch (req : Request) : Lib Response := @Prog.await Call Call.Reply (.fetch req)

/-- The awaited timer wait. -/
def sleep (ms : Nat) : Lib Unit := @Prog.perform Call Call.Reply (.setTimeout ms)

/-- The call `console.error(...)`. -/
def consoleError (args : List String) : Lib Unit :=
  @Prog.perform Call Call.Reply (.consoleError args)

/-- The awaited call `response.json()`. -/
def Response.getJson (response : Response) : Lib JsVal :=
  Prog.ofExcept response.json

/-- The property read `v.key` inside a program. -/
def getProp (v : JsVal) (key : String) : Lib JsVal :=
  Prog.ofExcept (v.getProp key)

/-- The fields of a `Claursor` instance. -/
structure Claursor where
  bridgeUrl : String := "http://localhost:8000"
  connected : Bool := false
deriving DecidableEq, Repr

/-- The headers of the library's POST requests. -/
def jsonHeaders : List (String × String) := [("Content-Type", "application/json")]

/-- Check if the bridge server is running and connected to the editor.  The
method gives back its value and the instance as it leaves it. -/
def checkConnection (self : Claursor) : Lib (Bool × Claursor) :=
  tryCatch
    (do
      let response ← fetch { url := self.bridgeUrl ++ "/health", timeout := some 5000 }
      if response.ok then do
        let contextResponse ← fetch { url := self.bridgeUrl ++ "/api/context" }
        if contextResponse.ok then do
          let context ← contextResponse.getJson
          let project_root ← getProp context "project_root"
          let self := { self with connected := project_root.notNull }
          pure (self.connected, self)
        else
          pure (false, self)
      else
        pure (false, self))
    (fun error => do
      consoleError ["Error checking connection:", error.message]
      pure (false, self))

/-- The guard `!this.connected && !(await this.checkConnection())` that opens
every public method: the connection is checked only when the flag is not
set. -/
def notConnected (self : Claursor) : Lib (Bool × Claursor) :=
  if !self.connected then do
    let (connected, self) ← checkConnection self
    pure (!connected, self)
  else
    pure (false, self)

/-- One round of the loop of `_waitForActionResult`: wait, ask for the result,
give it back if the response is ok; `none` when the loop is to go on. -/
def pollResultOnce (self : Claursor) (actionId : JsVal) : Lib (Option JsVal) := do
  sleep 500
  tryCatch
    (do
      let id ← Prog.ofExcept actionId.toJsString
      let response ← fetch { url := self.bridgeUrl ++ "/api/actions/" ++ id ++ "/result" }
      if response.ok then do
        let result ← response.getJson
        pure (some result)
      else
        pure none)
    (fun error => do
      consoleError ["Error getting action result:", error.message]
      pure none)

/-- The loop `for (let i = 0; i < 10; i++)` of `_waitForActionResult`, by the
number of rounds still to go; `null` when they are used up. -/
def waitRounds (self : Claursor) (actionId : JsVal) : Nat → Lib JsVal
  | 0 => pure .null
  | n + 1 => do
      let found ← pollResultOnce self actionId
      match found with
      | some result => pure result
      | none => waitRounds self actionId n

/-- Wait for an action result: 10 attempts, 500 ms apart. -/
def _waitForActionResult (self : Claursor) (actionId : JsVal) : Lib JsVal :=
  waitRounds self actionId 10

/-- The expression `result && result.success`. -/
def resultSuccess (result : JsVal) : Lib JsVal :=
  if result.truthy then getProp result "success" else pure result

/-- The body shared by `replaceSelection`, `openFile` and `showMessage` after
the guard: enqueue the action and wait for its result. -/
def enqueueAndWait (self : Claursor) (action : JsVal) (what : String) : Lib JsVal :=
  tryCatch
    (do
      let response ← fetch
        { url := self.bridgeUrl ++ "/api/actions",
          method := "POST",
          headers := jsonHeaders,
          body := some action }
      if response.ok then do
        let body ← response.getJson
        let action_id ← getProp body "action_id"
        let result ← _waitForActionResult self action_id
        resultSuccess result
      else
        pure (.bool false))
    (fun error => do
      consoleError [what, error.message]
      pure (.bool false))

/-- Get the current selection in the editor. -/
def getSelection (self : Claursor) : Lib (JsVal × Claursor) := do
  let (stop, self) ← notConnected self
  if stop then do
    consoleError ["Not connected to the editor"]
    pure (.null, self)
  else do
    let value ← tryCatch
      (do
        let response ← fetch
          { url := self.bridgeUrl ++ "/api/actions",
            method := "POST",
            headers := jsonHeaders,
            body := some (.obj [("type", .str "getSelection")]) }
        if response.ok then do
          let body ← response.getJson
          let action_id ← getProp body "action_id"
          let result ← _waitForActionResult self action_id
          let success ← resultSuccess result
          if success.truthy then getProp result "data" else pure .null
        else
          pure .null)
      (fun error => do
        consoleError ["Error getting selection:", error.message]
        pure .null)
    pure (value, self)

/-- Replace the current selection in the editor. -/
def replaceSelection (self : Claursor) (text : JsVal) : Lib (JsVal × Claursor) := do
  let (stop, self) ← notConnected self
  if stop then do
    consoleError ["Not connected to the editor"]
    pure (.bool false, self)
  else do
    let value ← enqueueAndWait self
      (.obj [("type", .str "replaceSelection"), ("text", text)])
      "Error replacing selection:"
    pure (value, self)

/-- Open a file in the editor. -/
def openFile (self : Claursor) (filePath : JsVal) : Lib (JsVal × Claursor) := do
  let (stop, self) ← notConnected self
  if stop then do
    consoleError ["Not connected to the editor"]
    pure (.bool false, self)
  else do
    let value ← enqueueAndWait self
      (.obj [("type", .str "openFile"), ("path", filePath)])
      "Error opening file:"
    pure (value, self)

/-- The value of a parameter with a default: the default when the argument is
`undefined`. -/
def orDefault (v : JsVal) (d : JsVal) : JsVal :=
  match v with
  | .undefined => d
  | _ => v

/-- Show a message in the editor. -/
def showMessage (self : Claursor) (message : JsVal) (messageType : JsVal := .undefined) :
    Lib (JsVal × Claursor) := do
  let messageType := orDefault messageType (.str "info")
  let (stop, self) ← notConnected self
  if stop then do
    consoleError ["Not connected to the editor"]
    pure (.bool false, self)
  else do
    let value ← enqueueAndWait self
      (.obj [("type", .str "showMessage"), ("message", message),
             ("messageType", messageType)])
      "Error showing message:"
    pure (value, self)

/-! ### The remaining public methods -/

/-- The hexadecimal digit (upper case) of a number below 16. -/
def hexDigit (n : Nat) : Char :=
  if n < 10 then Char.ofNat (48 + n) else Char.ofNat (55 + n)

/-- The escape `%XX` of a byte. -/
def percentByte (b : Nat) : String :=
  String.mk ['%', hexDigit (b / 16), hexDigit (b % 16)]

/-- The UTF-8 bytes of a code point. -/
def utf8Bytes (n : Nat) : List Nat :=
  if n < 128 then [n]
  else if n < 2048 then [192 + n / 64, 128 + n % 64]
  else if n < 65536 then [224 + n / 4096, 128 + (n / 64) % 64, 128 + n % 64]
  else [240 + n / 262144, 128 + (n / 4096) % 64, 128 + (n / 64) % 64, 128 + n % 64]

/-- The characters `encodeURIComponent` leaves as they are: ASCII letters and
digits and `- _ . ! ~ * ' ( )`. -/
def isUnreserved (c : Char) : Bool :=
  c.isAlphanum || [45, 95, 46, 33, 126, 42, 39, 40, 41].contains c.toNat

/-- The builtin `encodeURIComponent` on a string of Unicode scalar values (on
which it does not throw): every other character is replaced by the escapes of
its UTF-8 bytes. -/
def encodeURIComponent (s : String) : String :=
  String.join (s.toList.map (fun c =>
    if isUnreserved c then c.toString
    else String.join ((utf8Bytes c.toNat).map percentByte)))

/-- Get information about the current file in the editor. -/
def getCurrentFile (self : Claursor) : Lib (JsVal × Claursor) := do
  let (stop, self) ← notConnected self
  if stop then do
    consoleError ["Not connected to the editor"]
    pure (.null, self)
  else do
    let value ← tryCatch
      (do
        let response ← fetch { url := self.bridgeUrl ++ "/api/context" }
        if response.ok then do
          let context ← response.getJson
          getProp context "current_file"
        else
          pure .null)
      (fun error => do
        consoleError ["Error getting current file:", error.message]
        pure .null)
    pure (value, self)

/-- Get the content of a file.  The argument is turned into a string by
`encodeURIComponent`. -/
def readFile (self : Claursor) (filePath : JsVal) : Lib (JsVal × Claursor) := do
  let (stop, self) ← notConnected self
  if stop then do
    consoleError ["Not connected to the editor"]
    pure (.null, self)
  else do
    let value ← tryCatch
      (do
        let path ← Prog.ofExcept filePath.toJsString
        let response ← fetch
          { url := self.bridgeUrl ++ "/api/file?path=" ++ encodeURIComponent path }
        if response.ok then do
          let data ← response.getJson
          getProp data "content"
        else
          pure .null)
      (fun error => do
        consoleError ["Error reading file:", error.message]
        pure .null)
    pure (value, self)

/-- Write content to a file. -/
def writeFile (self : Claursor) (filePath : JsVal) (content : JsVal) :
    Lib (JsVal × Claursor) := do
  let (stop, self) ← notConnected self
  if stop then do
    consoleError ["Not connected to the editor"]
    pure (.bool false, self)
  else do
    let value ← tryCatch
      (do
        let response ← fetch
          { url := self.bridgeUrl ++ "/api/file",
            method := "POST",
            headers := jsonHeaders,
            body := some (.obj [("path", filePath), ("content", content)]) }
        pure (.bool response.ok))
      (fun error => do
        consoleError ["Error writing file:", error.message]
        pure (.bool false))
    pure (value, self)

/-- Execute a shell command. -/
def executeCommand (self : Claursor) (command : JsVal) : Lib (JsVal × Claursor) := do
  let (stop, self) ← notConnected self
  if stop then do
    consoleError ["Not connected to the editor"]
    pure (.null, self)
  else do
    let value ← tryCatch
      (do
        let response ← fetch
          { url := self.bridgeUrl ++ "/api/execute",
            method := "POST",
            headers := jsonHeaders,
            body := some (.obj [("command", command)]) }
        if response.ok then
          response.getJson
        else
          pure .null)
      (fun error => do
        consoleError ["Error executing command:", error.message]
        pure .null)
    pure (value, self)

/-! ### What the claims speak about -/

/-- The request of the health check of `checkConnection`. -/
def healthRequest (self : Claursor) : Request :=
  { url := self.bridgeUrl ++ "/health", timeout := some 5000 }

/-- The request for the editor context. -/
def contextRequest (self : Claursor) : Request :=
  { url := self.bridgeUrl ++ "/api/context" }

/-- The request that asks for the result of the action with the rendered
identifier `id`. -/
def resultRequest (self : Claursor) (id : String) : Request :=
  { url := self.bridgeUrl ++ "/api/actions/" ++ id ++ "/result" }

/-- The response carries no Result: the request failed or was not ok. -/
def NoResult (outcome : Except JsError Response) : Prop :=
  ∀ response, outcome = .ok response → response.ok = false

/-- The response carries a Result: it is ok and its body parses. -/
def Present (outcome : Except JsError Response) : Prop :=
  ∃ response result, outcome = .ok response ∧ response.ok = true ∧
    response.json = .ok result

/-- The timer waits of a trace, in ms, in order. -/
def waits (evs : List (Event Call)) : List Nat :=
  evs.filterMap (fun e =>
    match e.call with
    | .setTimeout ms => some ms
    | _ => none)

/-- The timer waits and requests of a trace, in order (the console output left
out). -/
def timeline (evs : List (Event Call)) : List Call :=
  evs.filterMap (fun e =>
    match e.call with
    | .consoleError _ => none
    | c => some c)

/-- The number of requests made in a trace. -/
def fetchCount (evs : List (Event Call)) : Nat :=
  (evs.filter (fun e =>
    match e.call with
    | .fetch _ => true
    | _ => false)).length

/-- The event is a POST request. -/
def isPost (e : Event Call) : Bool :=
  match e.call with
  | .fetch req => req.method == "POST"
  | _ => false

/-- A call of a public method of `Claursor`, with its arguments. -/
inductive MethodCall where
  | checkConnection
  | getCurrentFile
  | getSelection
  | replaceSelection (text : JsVal)
  | readFile (filePath : JsVal)
  | writeFile (filePath : JsVal) (content : JsVal)
  | openFile (filePath : JsVal)
  | showMessage (message : JsVal) (messageType : JsVal)
  | executeCommand (command : JsVal)

/-- Make the call on an instance: the value it resolves to and the instance as
the call leaves it. -/
def MethodCall.invoke (m : MethodCall) (self : Claursor) : Lib (JsVal × Claursor) :=
  match m with
  | .checkConnection => do
      let (connected, self) ← Client.checkConnection self
      pure (.bool connected, self)
  | .getCurrentFile => Client.getCurrentFile self
  | .getSelection => Client.getSelection self
  | .replaceSelection text => Client.replaceSelection self text
  | .readFile filePath => Client.readFile self filePath
  | .writeFile filePath content => Client.writeFile self filePath content
  | .openFile filePath => Client.openFile self filePath
  | .showMessage message messageType => Client.showMessage self message messageType
  | .executeCommand command => Client.executeCommand self command

/-- The event is a request. -/
def isRequest (e : Event Call) : Bool :=
  match e.call with
  | .fetch _ => true
  | _ => false

/-- The request failed: it threw, or its response is not ok. -/
def failed : Except JsError Response → Bool
  | .ok response => !response.ok
  | .error _ => true

/-- Whether the last request among the events `evs`, made after the history
`tr`, failed; `acc` when there is no request among them. -/
def lastRequestFailed (env : Env Call Call.Reply) :
    List (Event Call) → List (Event Call) → Option Bool → Option Bool
  | _, [], acc => acc
  | tr, e :: rest, acc =>
      lastRequestFailed env (tr ++ [e]) rest
        (match e.call with
          | .fetch req => some (failed (env tr (.fetch req)))
          | _ => acc)

/-- The shape shared by the public methods other than `checkConnection`: the
guard, the sentinel when it stops the call, the body otherwise. -/
def guarded (sentinel : JsVal) (body : Claursor → Lib JsVal) (self : Claursor) :
    Lib (JsVal × Claursor) := do
  let (stop, self) ← notConnected self
  if stop then do
    consoleError ["Not connected to the editor"]
    pure (sentinel, self)
  else do
    let value ← body self
    pure (value, self)

/-- What the proofs need of the body of a public method: it resolves to a
value, the value is falsy if the last request failed, and no request goes to
`/health`. -/
def BodySpec (env : Env Call Call.Reply) (self : Claursor) (tr : List (Event Call))
    (out : Except JsError JsVal × List (Event Call)) : Prop :=
  ∃ v, out.1 = .ok v ∧
    (∀ acc, lastRequestFailed env tr out.2 acc = some true → v.truthy = false) ∧
    (∀ e ∈ out.2, ∀ req, e.call = .fetch req → req.url ≠ self.bridgeUrl ++ "/health")

/-- The timeline of `k` attempts on a request, each preceded by a 500 ms wait. -/
def attempts (req : Request) : Nat → List Call
  | 0 => []
  | k + 1 => .setTimeout 500 :: .fetch req :: attempts req k

/-- The event of the timer wait that opens a round. -/
def waitEvent (env : Env Call Call.Reply) (tr : List (Event Call)) : Event Call :=
  ⟨.setTimeout 500, outcomeError (env tr (.setTimeout 500))⟩

/-- The history of a wait that began after `tr`, when `j` of its rounds are
over: `tr`, then the calls these rounds made, as the run makes them. -/
def historyAfter (env : Env Call Call.Reply) (self : Claursor) (actionId : JsVal)
    (tr : List (Event Call)) : Nat → List (Event Call)
  | 0 => tr
  | j + 1 =>
      historyAfter env self actionId tr j
        ++ ((pollResultOnce self actionId).run env (historyAfter env self actionId tr j)).2

/-- What the bridge answers to the request for the result that the wait makes
in its round `j + 1`: the request goes out after the `j` rounds before it and
the timer wait that opens the round. -/
def pollAnswer (env : Env Call Call.Reply) (self : Claursor) (actionId : JsVal)
    (id : String) (tr : List (Event Call)) (j : Nat) : Except JsError Response :=
  env (historyAfter env self actionId tr j
        ++ [waitEvent env (historyAfter env self actionId tr j)])
    (.fetch (resultRequest self id))

/-- The request with which `getSelection` enqueues its action. -/
def sampleEnqueue : Request :=
  { url := "http://localhost:8000/api/actions",
    method := "POST",
    headers := jsonHeaders,
    body := some (.obj [("type", .str "getSelection")]) }

/-! ### Sample environments -/

/-- A bridge that answers every request with a response that is not ok. -/
def refusingEnv : Env Call Call.Reply := fun _ c =>
  match c with
  | .fetch _ => .ok { ok := false }
  | .setTimeout _ => .ok ()
  | .consoleError _ => .ok ()

/-- The body of a Result as the bridge hands it out. -/
def sampleResult : JsVal :=
  .obj [("action_id", .str "a1"), ("success", .bool true), ("error", .null),
        ("data", .null)]

/-- A bridge on which the first request fails, the second is answered with a
response that is not ok, and every later one with a Result. -/
def thirdRequestEnv : Env Call Call.Reply := fun history c =>
  match c with
  | .fetch _ =>
      match fetchCount history with
      | 0 => .error ⟨"socket hang up"⟩
      | 1 => .ok { ok := false }
      | _ => .ok { ok := true, json := .ok sampleResult }
  | .setTimeout _ => .ok ()
  | .consoleError _ => .ok ()

/-- A bridge that answers every request with an ok response whose body is a
context without a `project_root` field. -/
def bareContextEnv : Env Call Call.Reply := fun _ c =>
  match c with
  | .fetch _ => .ok { ok := true, json := .ok (.obj [("files_open", .arr [])]) }
  | .setTimeout _ => .ok ()
  | .consoleError _ => .ok ()

/-- The body with which the bridge acknowledges an enqueued action. -/
def sampleAck : JsVal := .obj [("action_id", .str "a1")]

/-- A bridge that accepts the first request (the enqueue) and never has a
Result: every later request is answered with a response that is not ok. -/
def acceptingEnv : Env Call Call.Reply := fun history c =>
  match c with
  | .fetch _ =>
      match fetchCount history with
      | 0 => .ok { ok := true, json := .ok sampleAck }
      | _ => .ok { ok := false }
  | .setTimeout _ => .ok ()
  | .consoleError _ => .ok ()

/-- A bridge that accepts the first request (the enqueue), fails the second (the
first request for the result) and answers every later one with a Result. -/
def retryEnv : Env Call Call.Reply := fun history c =>
  match c with
  | .fetch _ =>
      match fetchCount history with
      | 0 => .ok { ok := true, json := .ok sampleAck }
      | 1 => .error ⟨"socket hang up"⟩
      | _ => .ok { ok := true, json := .ok sampleResult }
  | .setTimeout _ => .ok ()
  | .consoleError _ => .ok ()

/-- A bridge that answers every request with an ok response whose body is a
context with the given `project_root`. -/
def contextEnv (project_root : JsVal) : Env Call Call.Reply := fun _ c =>
  match c with
  | .fetch _ => .ok { ok := true, json := .ok (.obj [("project_root", project_root)]) }
  | .setTimeout _ => .ok ()
  | .consoleError _ => .ok ()

end Client

/-! ## Running programs -/

namespace Prog

variable {C : Type} {R : C → Type} {α β : Type} (env : Env C R)

@[simp] theorem pure_bind_eq (a : α) (f : α → Prog C R β) :
    ((pure a : Prog C R α) >>= f) = f a := rfl

@[simp] theorem run_pure (a : α) (tr : List (Event C)) :
    (pure a : Prog C R α).run env tr = (.ok a, []) := rfl

@[simp] theorem run_ret (a : α) (tr : List (Event C)) :
    (Prog.ret a : Prog C R α).run env tr = (.ok a, []) := rfl

@[simp] theorem run_throw (e : JsError) (tr : List (Event C)) :
    (MonadExcept.throw e : Prog C R α).run env tr = (.error e, []) := rfl

@[simp] theorem run_ofExcept (o : Except JsError α) (tr : List (Event C)) :
    (Prog.ofExcept o : Prog C R α).run env tr = (o, []) := by
  cases o <;> rfl

@[simp] theorem ofExcept_ok_bind (a : α) (f : α → Prog C R β) :
    ((Prog.ofExcept (.ok a) : Prog C R α) >>= f) = f a := rfl

@[simp] theorem ofExcept_error_bind (e : JsError) (f : α → Prog C R β) :
    ((Prog.ofExcept (.error e) : Prog C R α) >>= f) = MonadExcept.throw e := rfl

theorem run_bind (p : Prog C R α) (f : α → Prog C R β) (tr : List (Event C)) :
    (p >>= f).run env tr =
      match p.run env tr with
      | (.ok a, evs) =>
          (((f a).run env (tr ++ evs)).1, evs ++ ((f a).run env (tr ++ evs)).2)
      | (.error e, evs) => (.error e, evs) := by
  induction p generalizing tr with
  | ret a => simp [run, Bind.bind, Prog.bind]
  | throw e => simp [run, Bind.bind, Prog.bind]
  | call c k ih =>
      have h := ih (env tr c) (tr ++ [⟨c, outcomeError (env tr c)⟩])
      simp only [Bind.bind] at h ⊢
      simp only [Prog.bind, run, h]
      split <;> simp_all

theorem run_tryCatch (p : Prog C R α) (h : JsError → Prog C R α) (tr : List (Event C)) :
    (MonadExcept.tryCatch p h).run env tr =
      match p.run env tr with
      | (.ok a, evs) => (.ok a, evs)
      | (.error e, evs) =>
          (((h e).run env (tr ++ evs)).1, evs ++ ((h e).run env (tr ++ evs)).2) := by
  induction p generalizing tr with
  | ret a => simp [run, MonadExcept.tryCatch, Prog.tryCatch]
  | throw e => simp [run, MonadExcept.tryCatch, Prog.tryCatch]
  | call c k ih =>
      have h' := ih (env tr c) (tr ++ [⟨c, outcomeError (env tr c)⟩])
      simp only [MonadExcept.tryCatch] at h' ⊢
      simp only [Prog.tryCatch, run, h']
      split <;> simp_all

theorem run_await (c : C) (tr : List (Event C)) :
    (Prog.await c : Prog C R (R c)).run env tr
      = (env tr c, [⟨c, outcomeError (env tr c)⟩]) := by
  simp only [Prog.await, run]
  cases env tr c <;> rfl

@[simp] theorem run_perform (c : C) (tr : List (Event C)) :
    (Prog.perform c : Prog C R Unit).run env tr
      = (.ok (), [⟨c, outcomeError (env tr c)⟩]) := rfl

theorem run_perform_bind (c : C) (f : Unit → Prog C R β) (tr : List (Event C)) :
    (Prog.perform c >>= f).run env tr =
      (((f ()).run env (tr ++ [⟨c, outcomeError (env tr c)⟩])).1,
        ⟨c, outcomeError (env tr c)⟩ ::
          ((f ()).run env (tr ++ [⟨c, outcomeError (env tr c)⟩])).2) := by
  rw [run_bind, run_perform]
  simp

@[simp] theorem run_tryCatch_pure (a : α) (h : JsError → Prog C R α) (tr : List (Event C)) :
    (MonadExcept.tryCatch (pure a) h).run env tr = (.ok a, []) := rfl

@[simp] theorem run_tryCatch_throw (e : JsError) (h : JsError → Prog C R α)
    (tr : List (Event C)) :
    (MonadExcept.tryCatch (MonadExcept.throw e) h).run env tr = (h e).run env tr := rfl

/-- A `try` block that does not throw runs as if it were not guarded. -/
theorem run_tryCatch_of_ok (p : Prog C R α) (h : JsError → Prog C R α) (tr : List (Event C))
    (a : α) (hp : (p.run env tr).1 = .ok a) :
    (MonadExcept.tryCatch p h).run env tr = p.run env tr := by
  rw [run_tryCatch]
  split
  · rename_i heq
    rw [heq]
  · rename_i heq
    rw [heq] at hp
    cases hp

end Prog

/-! ## The consumer: lemmas and claims -/

namespace Extension

@[simp] theorem run_host (env : Env Call Call.Reply) (c : HostCall) (tr : List (Event Call)) :
    (host c).run env tr
      = (env tr (.host c), [⟨.host c, outcomeError (env tr (.host c))⟩]) :=
  Prog.run_await env (.host c) tr

@[simp] theorem run_fetch (env : Env Call Call.Reply) (req : Request)
    (tr : List (Event Call)) :
    (fetch req).run env tr
      = (env tr (.fetch req), [⟨.fetch req, outcomeError (env tr (.fetch req))⟩]) :=
  Prog.run_await env (.fetch req) tr

@[simp] theorem run_consoleLog (env : Env Call Call.Reply) (args : List String)
    (tr : List (Event Call)) :
    (consoleLog args).run env tr
      = (.ok (), [⟨.console "log" args, outcomeError (env tr (.console "log" args))⟩]) :=
  rfl

@[simp] theorem run_consoleError (env : Env Call Call.Reply) (args : List String)
    (tr : List (Event Call)) :
    (consoleError args).run env tr
      = (.ok (), [⟨.console "error" args, outcomeError (env tr (.console "error" args))⟩]) :=
  rfl

theorem run_host_bind {β : Type} (env : Env Call Call.Reply) (c : HostCall)
    (f : c.Reply → Ext β) (tr : List (Event Call)) :
    (host c >>= f).run env tr =
      match env tr (.host c) with
      | .ok v =>
          (((f v).run env (tr ++ [⟨.host c, none⟩])).1,
            ⟨.host c, none⟩ :: ((f v).run env (tr ++ [⟨.host c, none⟩])).2)
      | .error e => (.error e, [⟨.host c, some e⟩]) := by
  simp only [host, Prog.await, Bind.bind, Prog.bind, Prog.run]
  cases env tr (.host c) <;> rfl

theorem run_tryCatch_host_bind {β : Type} (env : Env Call Call.Reply) (c : HostCall)
    (f : c.Reply → Ext β) (h : JsError → Ext β) (tr : List (Event Call)) :
    (tryCatch (host c >>= f) h).run env tr =
      match env tr (.host c) with
      | .ok v =>
          (((tryCatch (f v) h).run env (tr ++ [⟨.host c, none⟩])).1,
            ⟨.host c, none⟩ :: ((tryCatch (f v) h).run env (tr ++ [⟨.host c, none⟩])).2)
      | .error e =>
          (((h e).run env (tr ++ [⟨.host c, some e⟩])).1,
            ⟨.host c, some e⟩ :: ((h e).run env (tr ++ [⟨.host c, some e⟩])).2) := by
  simp only [host, Prog.await, Bind.bind, Prog.bind, MonadExcept.tryCatch, Prog.tryCatch,
    Prog.run]
  cases env tr (.host c) <;> rfl

theorem run_tryCatch_fetch_bind {β : Type} (env : Env Call Call.Reply) (req : Request)
    (f : Response → Ext β) (h : JsError → Ext β) (tr : List (Event Call)) :
    (tryCatch (fetch req >>= f) h).run env tr =
      match env tr (.fetch req) with
      | .ok v =>
          (((tryCatch (f v) h).run env (tr ++ [⟨.fetch req, none⟩])).1,
            ⟨.fetch req, none⟩ ::
              ((tryCatch (f v) h).run env (tr ++ [⟨.fetch req, none⟩])).2)
      | .error e =>
          (((h e).run env (tr ++ [⟨.fetch req, some e⟩])).1,
            ⟨.fetch req, some e⟩ :: ((h e).run env (tr ++ [⟨.fetch req, some e⟩])).2) := by
  simp only [fetch, Prog.await, Bind.bind, Prog.bind, MonadExcept.tryCatch, Prog.tryCatch,
    Prog.run]
  cases env tr (.fetch req) <;> rfl

@[simp] theorem run_tryCatch_consoleError (env : Env Call Call.Reply) (args : List String)
    (h : JsError → Ext Unit) (tr : List (Event Call)) :
    (tryCatch (consoleError args) h).run env tr
      = (.ok (),
          [⟨.console "error" args, outcomeError (env tr (.console "error" args))⟩]) :=
  rfl

theorem handleOpenFile_spec (env : Env Call Call.Reply) (tr : List (Event Call))
    (action : Action) :
    HandlerSpec "Error opening file: " action
      ((handleOpenFile action (initialResult action)).run env tr) := by
  unfold handleOpenFile HandlerSpec
  split
  · simp [initialResult]
  · simp only [run_tryCatch_host_bind]
    repeat' split
    all_goals simp_all [initialResult, isHost]

theorem handleEditFile_spec (env : Env Call Call.Reply) (tr : List (Event Call))
    (action : Action) :
    HandlerSpec "Error editing file: " action
      ((handleEditFile action (initialResult action)).run env tr) := by
  unfold handleEditFile HandlerSpec
  split
  · simp [initialResult]
  · simp only [run_tryCatch_host_bind]
    repeat' split
    all_goals simp_all [initialResult, isHost]

theorem handleGetFileContent_spec (env : Env Call Call.Reply) (tr : List (Event Call))
    (action : Action) :
    HandlerSpec "Error getting file content: " action
      ((handleGetFileContent action (initialResult action)).run env tr) := by
  unfold handleGetFileContent HandlerSpec
  split
  · simp [initialResult]
  · simp only [run_tryCatch_host_bind]
    repeat' split
    all_goals simp_all [initialResult, isHost]

theorem handleExecuteCommand_spec (env : Env Call Call.Reply) (tr : List (Event Call))
    (action : Action) :
    HandlerSpec "Error executing command: " action
      ((handleExecuteCommand action (initialResult action)).run env tr) := by
  unfold handleExecuteCommand HandlerSpec
  split
  · simp [initialResult]
  · simp only [run_tryCatch_host_bind]
    repeat' split
    all_goals simp_all [initialResult, isHost]

theorem handleShowMessage_spec (env : Env Call Call.Reply) (tr : List (Event Call))
    (action : Action) :
    HandlerSpec "Error showing message: " action
      ((handleShowMessage action (initialResult action)).run env tr) := by
  unfold handleShowMessage HandlerSpec
  split
  · simp [initialResult]
  · split
    all_goals simp only [run_tryCatch_host_bind]
    all_goals repeat' split
    all_goals simp_all [initialResult, isHost]

theorem handleGetSelection_spec (env : Env Call Call.Reply) (tr : List (Event Call))
    (action : Action) :
    HandlerSpec "Error getting selection: " action
      ((handleGetSelection action (initialResult action)).run env tr) := by
  unfold handleGetSelection HandlerSpec
  simp only [run_tryCatch_host_bind]
  repeat' split
  all_goals simp_all [initialResult, isHost, run_tryCatch_host_bind]
  all_goals repeat' split
  all_goals simp_all [initialResult, isHost]

theorem handleReplaceSelection_spec (env : Env Call Call.Reply) (tr : List (Event Call))
    (action : Action) :
    HandlerSpec "Error replacing selection: " action
      ((handleReplaceSelection action (initialResult action)).run env tr) := by
  unfold handleReplaceSelection HandlerSpec
  split
  · simp [initialResult]
  · simp only [run_tryCatch_host_bind]
    repeat' split
    all_goals simp_all [initialResult, isHost, run_tryCatch_host_bind]
    all_goals repeat' split
    all_goals simp_all [initialResult, isHost]

/-- The event that opens `processAction`, for a type that renders. -/
theorem processingEvent_of_type (env : Env Call Call.Reply) (tr : List (Event Call))
    (action : Action) (type : String) (ht : action.type.toJsString = .ok type) :
    processingEvent env tr action
      = ⟨processingLine type, outcomeError (env tr (processingLine type))⟩ := by
  have hname : action.typeName = type := by simp [Action.typeName, ht]
  unfold processingEvent
  rw [hname]

/-- The run of the first half of `processAction` for a type that renders: the
log line, then the dispatch. -/
theorem processActionResult_run (env : Env Call Call.Reply) (tr : List (Event Call))
    (action : Action) (type : String) (ht : action.type.toJsString = .ok type) :
    (processActionResult action).run env tr
      = (((dispatch action (initialResult action)).run env
            (tr ++ [processingEvent env tr action])).1,
          processingEvent env tr action ::
            ((dispatch action (initialResult action)).run env
              (tr ++ [processingEvent env tr action])).2) := by
  unfold processActionResult consoleLog
  simp only [ht, Prog.ofExcept_ok_bind]
  rw [Prog.run_perform_bind, processingEvent_of_type env tr action type ht]
  rfl

/-- A string renders as itself. -/
theorem toJsString_str (s : String) : (JsVal.str s).toJsString = .ok s := by
  rw [JsVal.toJsString]

/-- The dispatch on a type that has a handler runs as the handler does. -/
theorem dispatch_known (env : Env Call Call.Reply) (tr : List (Event Call))
    (action : Action) (h : action.type ∈ knownTypes) :
    ∃ out, HandlerSpec (errorPrefix action.type) action out ∧
      (dispatch action (initialResult action)).run env tr = out := by
  simp only [knownTypes, List.mem_cons, List.mem_singleton, List.not_mem_nil, or_false] at h
  rcases h with h | h | h | h | h | h | h
  · have hs := handleOpenFile_spec env tr action
    refine ⟨_, by simpa [errorPrefix, h] using hs, ?_⟩
    obtain ⟨r, hr, -⟩ := hs
    unfold dispatch
    simp only [h]
    rw [Prog.run_tryCatch_of_ok env _ _ _ r hr]
  · have hs := handleEditFile_spec env tr action
    refine ⟨_, by simpa [errorPrefix, h] using hs, ?_⟩
    obtain ⟨r, hr, -⟩ := hs
    unfold dispatch
    simp only [h]
    rw [Prog.run_tryCatch_of_ok env _ _ _ r hr]
  · have hs := handleGetFileContent_spec env tr action
    refine ⟨_, by simpa [errorPrefix, h] using hs, ?_⟩
    obtain ⟨r, hr, -⟩ := hs
    unfold dispatch
    simp only [h]
    rw [Prog.run_tryCatch_of_ok env _ _ _ r hr]
  · have hs := handleExecuteCommand_spec env tr action
    refine ⟨_, by simpa [errorPrefix, h] using hs, ?_⟩
    obtain ⟨r, hr, -⟩ := hs
    unfold dispatch
    simp only [h]
    rw [Prog.run_tryCatch_of_ok env _ _ _ r hr]
  · have hs := handleShowMessage_spec env tr action
    refine ⟨_, by simpa [errorPrefix, h] using hs, ?_⟩
    obtain ⟨r, hr, -⟩ := hs
    unfold dispatch
    simp only [h]
    rw [Prog.run_tryCatch_of_ok env _ _ _ r hr]
  · have hs := handleGetSelection_spec env tr action
    refine ⟨_, by simpa [errorPrefix, h] using hs, ?_⟩
    obtain ⟨r, hr, -⟩ := hs
    unfold dispatch
    simp only [h]
    rw [Prog.run_tryCatch_of_ok env _ _ _ r hr]
  · have hs := handleReplaceSelection_spec env tr action
    refine ⟨_, by simpa [errorPrefix, h] using hs, ?_⟩
    obtain ⟨r, hr, -⟩ := hs
    unfold dispatch
    simp only [h]
    rw [Prog.run_tryCatch_of_ok env _ _ _ r hr]

/-- A type that has a handler is a string: it renders as itself. -/
theorem knownType_renders (v : JsVal) (h : v ∈ knownTypes) :
    ∃ type, v.toJsString = .ok type := by
  simp only [knownTypes, List.mem_cons, List.mem_singleton, List.not_mem_nil, or_false] at h
  rcases h with h | h | h | h | h | h | h <;> exact ⟨_, by rw [h, toJsString_str]⟩

theorem processActionResult_known (env : Env Call Call.Reply) (tr : List (Event Call))
    (action : Action) (h : action.type ∈ knownTypes) :
    ∃ out, HandlerSpec (errorPrefix action.type) action out ∧
      (processActionResult action).run env tr
        = (out.1, processingEvent env tr action :: out.2) := by
  obtain ⟨type, ht⟩ := knownType_renders action.type h
  obtain ⟨out, hspec, hrun⟩ :=
    dispatch_known env (tr ++ [processingEvent env tr action]) action h
  exact ⟨out, hspec, by rw [processActionResult_run env tr action type ht, hrun]⟩

/-- The dispatch on a type without handler that renders as `type`. -/
theorem dispatch_unknown (env : Env Call Call.Reply) (tr : List (Event Call))
    (action : Action) (result : Result) (type : String) (h : action.type ∉ knownTypes)
    (ht : action.type.toJsString = .ok type) :
    (dispatch action result).run env tr
      = (.ok { result with error := some ("Unknown action type: " ++ type) }, []) := by
  simp only [knownTypes, List.mem_cons, List.mem_singleton, not_or, List.not_mem_nil] at h
  obtain ⟨h1, h2, h3, h4, h5, h6, h7, -⟩ := h
  unfold dispatch
  split <;> first
    | contradiction
    | simp [ht]

/-- The run of the first half of `processAction` on a type without handler
that the template literal renders as `type`. -/
theorem processActionResult_unknown (env : Env Call Call.Reply) (tr : List (Event Call))
    (action : Action) (type : String) (h : action.type ∉ knownTypes)
    (ht : action.type.toJsString = .ok type) :
    (processActionResult action).run env tr
      = (.ok { action_id := action.id, success := false,
               error := some ("Unknown action type: " ++ type),
               data := .null },
         [processingEvent env tr action]) := by
  rw [processActionResult_run env tr action type ht,
    dispatch_unknown env _ action _ type h ht]
  rfl

/-- The first half of `processAction` throws what the rendering of the type
throws, before it makes any call. -/
theorem processActionResult_throws (env : Env Call Call.Reply) (tr : List (Event Call))
    (action : Action) (e : JsError) (ht : action.type.toJsString = .error e) :
    (processActionResult action).run env tr = (.error e, []) := by
  unfold processActionResult
  simp only [ht, Prog.ofExcept_error_bind, Prog.run_throw]

/-- A call of `processAction` rejects with what the rendering of the type
throws, and makes no call at all: no Result is computed and none is posted. -/
theorem processAction_throws (env : Env Call Call.Reply) (tr : List (Event Call))
    (action : Action) (e : JsError) (ht : action.type.toJsString = .error e) :
    (processAction action).run env tr = (.error e, []) := by
  unfold processAction
  rw [Prog.run_bind, processActionResult_throws env tr action e ht]

/-- Whenever the type of the action renders, the first half of `processAction`
comes to a Result, and none of its calls is a `fetch`. -/
theorem processActionResult_total (env : Env Call Call.Reply) (tr : List (Event Call))
    (action : Action) (type : String) (ht : action.type.toJsString = .ok type) :
    ∃ r, ((processActionResult action).run env tr).1 = .ok r ∧
      fetches ((processActionResult action).run env tr).2 = [] ∧
      r.action_id = action.id := by
  by_cases h : action.type ∈ knownTypes
  · obtain ⟨out, ⟨r, hr, hid, hhost, -⟩, hrun⟩ := processActionResult_known env tr action h
    refine ⟨r, by rw [hrun]; exact hr, ?_, hid⟩
    rw [hrun]
    simp only [fetches, processingEvent, processingLine, List.filterMap_cons]
    rw [List.filterMap_eq_nil_iff]
    intro e he
    have := hhost e he
    simp only [isHost] at this
    split at this <;> simp_all
  · rw [processActionResult_unknown env tr action type h ht]
    exact ⟨_, rfl, rfl, rfl⟩

/-- The second half of `processAction` never throws and uses no host
capability. -/
theorem sendResult_ok (env : Env Call Call.Reply) (tr : List (Event Call))
    (action : Action) (result : Result) :
    ((sendResult action result).run env tr).1 = .ok () ∧
      ∀ e ∈ ((sendResult action result).run env tr).2, isHost e = false := by
  unfold sendResult
  cases hid : resultUrl action with
  | error e => simp [isHost]
  | ok url =>
      simp only [Prog.ofExcept_ok_bind]
      unfold jsonStringify
      split
      · simp [Prog.run_tryCatch, Prog.run_bind, isHost]
      · simp only [Prog.pure_bind_eq, run_tryCatch_fetch_bind]
        repeat' split
        all_goals simp_all [isHost]

/-- The URL of the result endpoint, for an id that renders. -/
theorem resultUrl_ok (action : Action) (id : String) (hid : action.id.toJsString = .ok id) :
    resultUrl action = .ok (BRIDGE_SERVER_URL ++ "/api/actions/" ++ id ++ "/result") := by
  unfold resultUrl
  rw [hid]
  rfl

/-- A result that serialises, of an action whose id renders, is posted by
exactly one `fetch`. -/
theorem sendResult_fetches (env : Env Call Call.Reply) (tr : List (Event Call))
    (action : Action) (result : Result) (id : String)
    (hid : action.id.toJsString = .ok id)
    (h : ∀ message, result.data ≠ .commandResult (.unserialisable message)) :
    fetches ((sendResult action result).run env tr).2 = [resultRequest id result] := by
  unfold sendResult
  rw [resultUrl_ok action id hid]
  simp only [Prog.ofExcept_ok_bind]
  unfold jsonStringify
  split
  · rename_i message heq
    exact absurd heq (h message)
  · simp only [Prog.pure_bind_eq, run_tryCatch_fetch_bind]
    repeat' split
    all_goals simp_all [fetches, resultRequest]

/-- The run of `processAction` from the run of its first half. -/
theorem processAction_run (env : Env Call Call.Reply) (tr : List (Event Call))
    (action : Action) (r : Result) (evs : List (Event Call))
    (h : (processActionResult action).run env tr = (.ok r, evs)) :
    (processAction action).run env tr
      = (((sendResult action r).run env (tr ++ evs)).1,
          evs ++ ((sendResult action r).run env (tr ++ evs)).2) := by
  unfold processAction
  rw [Prog.run_bind, h]

/-- A pair is its two components. -/
theorem run_eq_of_fst {α : Type} (out : Except JsError α × List (Event Call)) (a : α)
    (h : out.1 = .ok a) : out = (.ok a, out.2) := by
  cases out
  simp_all

/-- The calls of `processAction` are those of its first half, then those of
the second half; the second half uses no host capability and does not throw. -/
theorem processAction_spec (env : Env Call Call.Reply) (tr : List (Event Call))
    (action : Action) (r : Result)
    (h : ((processActionResult action).run env tr).1 = .ok r) :
    ((processAction action).run env tr).1 = .ok () ∧
      (∀ e ∈ ((processAction action).run env tr).2,
        isHost e = true → e ∈ ((processActionResult action).run env tr).2) ∧
      fetches ((processAction action).run env tr).2
        = fetches ((processActionResult action).run env tr).2
          ++ fetches ((sendResult action r).run env
              (tr ++ ((processActionResult action).run env tr).2)).2 := by
  have hrun := processAction_run env tr action r _ (run_eq_of_fst _ r h)
  have hsend := sendResult_ok env (tr ++ ((processActionResult action).run env tr).2) action r
  rw [hrun]
  refine ⟨hsend.1, ?_, ?_⟩
  · intro e he hhost
    rcases List.mem_append.mp he with he | he
    · exact he
    · have := hsend.2 e he
      simp_all
  · simp [fetches, List.filterMap_append]

theorem processActionResult_absent (env : Env Call Call.Reply) (tr : List (Event Call))
    (action : Action) (h : RequiredFieldAbsent action) :
    ∃ r, (processActionResult action).run env tr = (.ok r, [processingEvent env tr action]) ∧
      r.success = false := by
  rcases h with ⟨ht, hf⟩ | ⟨ht, hf⟩ | ⟨ht, hf⟩ | ⟨ht, hf⟩ | ⟨ht, hf⟩ | ⟨ht, hf⟩
  all_goals
    rw [processActionResult_run env tr action _ (by rw [ht, toJsString_str])]
    unfold dispatch
  · simp [ht, hf, handleOpenFile, JsVal.truthy, initialResult]
  · simp [ht, hf, handleGetFileContent, JsVal.truthy, initialResult]
  · rcases hf with hf | hf <;> simp [ht, hf, handleEditFile, JsVal.truthy, initialResult]
  · simp [ht, hf, handleExecuteCommand, JsVal.truthy, initialResult]
  · simp [ht, hf, handleShowMessage, JsVal.truthy, initialResult]
  · simp [ht, hf, handleReplaceSelection, JsVal.truthy, initialResult]

/-- The loop of `pollForActions` calls `processAction` on every action, in
order, whatever the calls give back. -/
theorem run_forM_processAction (env : Env Call Call.Reply) (actions : List Action)
    (tr : List (Event Call)) :
    ((actions.forM (fun action =>
        @Prog.perform Call Call.Reply (.processAction action))).run env tr).1 = .ok () ∧
      invocations ((actions.forM (fun action =>
        @Prog.perform Call Call.Reply (.processAction action))).run env tr).2 = actions := by
  induction actions generalizing tr with
  | nil => exact ⟨rfl, rfl⟩
  | cons a rest ih =>
      simp only [List.forM]
      rw [Prog.run_perform_bind]
      have := ih (tr ++ [⟨.processAction a, outcomeError (env tr (.processAction a))⟩])
      simp_all [invocations]

/-! ### The claims on the consumer -/

/-- For an action whose type is none of the seven handled ones and renders as
`type`, `processAction` computes the Result with `success = false` and `error`
the text "Unknown action type: " followed by `type`, uses no host-editor
capability and does not throw; when the id of the action renders too, that
Result is what its one `fetch` posts. -/
theorem processAction_unknown (env : Env Call Call.Reply) (tr : List (Event Call))
    (action : Action) (type : String) (h : action.type ∉ knownTypes)
    (ht : action.type.toJsString = .ok type) :
    ((processActionResult action).run env tr).1
        = .ok { action_id := action.id, success := false,
                error := some ("Unknown action type: " ++ type),
                data := .null } ∧
      (∀ e ∈ ((processAction action).run env tr).2, isHost e = false) ∧
      ((processAction action).run env tr).1 = .ok () ∧
      ∀ id, action.id.toJsString = .ok id →
        fetches ((processAction action).run env tr).2
          = [resultRequest id { action_id := action.id, success := false,
                                error := some ("Unknown action type: " ++ type),
                                data := .null }] := by
  have hrun := processActionResult_unknown env tr action type h ht
  have hspec := processAction_spec env tr action _ (by rw [hrun])
  refine ⟨by rw [hrun], ?_, hspec.1, ?_⟩
  · intro e he
    cases hhost : isHost e with
    | false => rfl
    | true =>
        have hmem := hspec.2.1 e he hhost
        rw [hrun] at hmem
        simp only [List.mem_singleton] at hmem
        rw [hmem] at hhost
        simp [isHost, processingEvent, processingLine] at hhost
  · intro id hid
    rw [hspec.2.2, hrun, sendResult_fetches env _ action _ id hid (by intro m hm; cases hm)]
    rfl

/-- The run of `processAction` on a sample action of type "fly". -/
theorem processAction_fly :
    ((processActionResult flyAction).run sampleEnv []).1
        = .ok { action_id := .str "a1", success := false,
                error := some "Unknown action type: fly", data := .null } ∧
      (∀ e ∈ ((processAction flyAction).run sampleEnv []).2, isHost e = false) ∧
      ((processAction flyAction).run sampleEnv []).1 = .ok () :=
  ⟨(processAction_unknown sampleEnv [] flyAction "fly" (by decide) rfl).1,
    (processAction_unknown sampleEnv [] flyAction "fly" (by decide) rfl).2.1,
    (processAction_unknown sampleEnv [] flyAction "fly" (by decide) rfl).2.2.1⟩

/-- C1 fails on the code: the type of the action `{id: "a1", type: {toString: 1}}`
is none of the seven handled ones, and `processAction` throws on it, whatever
the host and the bridge do.  The log line renders the type before the first
`try` is entered, the rendering throws "Cannot convert object to primitive
value", and that ends the call: it makes no call at all, so no Result is
computed and none is posted. -/
theorem unknown_type_throws :
    oddType.type ∉ knownTypes ∧
      ∀ (env : Env Call Call.Reply) (tr : List (Event Call)),
        (processActionResult oddType).run env tr
            = (.error ⟨"Cannot convert object to primitive value"⟩, []) ∧
          (processAction oddType).run env tr
            = (.error ⟨"Cannot convert object to primitive value"⟩, []) :=
  ⟨by decide, fun env tr =>
    ⟨processActionResult_throws env tr oddType _ rfl, processAction_throws env tr oddType _ rfl⟩⟩

/-- C2: for an action whose required field is absent, the handler returns a
Result with `success = false` and `processAction` uses no host-editor
capability. -/
theorem absent_field_gives_failure (env : Env Call Call.Reply) (tr : List (Event Call))
    (action : Action) (h : RequiredFieldAbsent action) :
    ∃ r, ((processActionResult action).run env tr).1 = .ok r ∧ r.success = false ∧
      ∀ e ∈ ((processAction action).run env tr).2, isHost e = false := by
  obtain ⟨r, hrun, hsucc⟩ := processActionResult_absent env tr action h
  have hspec := processAction_spec env tr action r (by rw [hrun])
  refine ⟨r, by rw [hrun], hsucc, ?_⟩
  intro e he
  cases hhost : isHost e with
  | false => rfl
  | true =>
      have hmem := hspec.2.1 e he hhost
      rw [hrun] at hmem
      simp only [List.mem_singleton] at hmem
      rw [hmem] at hhost
      simp [isHost, processingEvent, processingLine] at hhost

/-- C2, at an openFile action without path. -/
theorem absent_field_gives_failure_witness :
    RequiredFieldAbsent openNoPath ∧
      ∃ r, ((processActionResult openNoPath).run sampleEnv []).1 = .ok r ∧
        r.success = false ∧
        ∀ e ∈ ((processAction openNoPath).run sampleEnv []).2, isHost e = false :=
  ⟨Or.inl ⟨rfl, rfl⟩,
    absent_field_gives_failure sampleEnv [] openNoPath (Or.inl ⟨rfl, rfl⟩)⟩

/-- C3 as stated fails: the host raises "ENOENT: no such file or directory" on
opening the file of an openFile action, and the error of the Result is not
that message but "Error opening file: " followed by it. -/
theorem host_error_not_verbatim :
    (∃ e ∈ ((processActionResult openMissing).run sampleEnv []).2,
        isHost e = true ∧ e.error = some ⟨"ENOENT: no such file or directory"⟩) ∧
      ∃ r, ((processActionResult openMissing).run sampleEnv []).1 = .ok r ∧
        r.success = false ∧
        r.error = some "Error opening file: ENOENT: no such file or directory" ∧
        r.error ≠ some "ENOENT: no such file or directory" := by
  refine ⟨by decide, ⟨_, rfl, rfl, rfl, by decide⟩⟩

/-- C3, amended: for an action of a handled type, if a host capability used by
the handler raises an exception with message `m`, the Result has
`success = false`, `data = null` and `error` the prefix of the handler
followed by `m`. -/
theorem host_error_gets_prefix (env : Env Call Call.Reply) (tr : List (Event Call))
    (action : Action) (m : String) (hk : action.type ∈ knownTypes)
    (hraise : ∃ e ∈ ((processActionResult action).run env tr).2,
      isHost e = true ∧ e.error = some ⟨m⟩) :
    ∃ r, ((processActionResult action).run env tr).1 = .ok r ∧ r.success = false ∧
      r.error = some (errorPrefix action.type ++ m) ∧ r.data = .null := by
  obtain ⟨out, ⟨r, hr, -, -, hcases⟩, hrun⟩ := processActionResult_known env tr action hk
  obtain ⟨e, he, hhost, herr⟩ := hraise
  rw [hrun] at he
  have he' : e ∈ out.2 := by
    rcases List.mem_cons.mp he with he | he
    · rw [he] at hhost
      simp [isHost, processingEvent, processingLine] at hhost
    · exact he
  refine ⟨r, by rw [hrun]; exact hr, ?_⟩
  rcases hcases with ⟨-, -, hnone⟩ | ⟨-, -, hnone, -⟩ | ⟨hs, hd, err, herror, -, hall⟩
  · rw [hnone e he'] at herr
    cases herr
  · rw [hnone e he'] at herr
    cases herr
  · rcases hall e he' with h | h
    · rw [h] at herr
      cases herr
    · rw [h] at herr
      cases herr
      exact ⟨hs, herror, hd⟩

/-- C3 amended, at an openFile action for a missing file. -/
theorem host_error_gets_prefix_witness :
    openMissing.type ∈ knownTypes ∧
      (∃ e ∈ ((processActionResult openMissing).run sampleEnv []).2,
        isHost e = true ∧ e.error = some ⟨"ENOENT: no such file or directory"⟩) ∧
      ∃ r, ((processActionResult openMissing).run sampleEnv []).1 = .ok r ∧
        r.success = false ∧
        r.error = some (errorPrefix openMissing.type
          ++ "ENOENT: no such file or directory") ∧
        r.data = .null :=
  ⟨by decide, by decide,
    host_error_gets_prefix sampleEnv [] openMissing "ENOENT: no such file or directory"
      (by decide) (by decide)⟩

/-- The run of a poll that is answered with a list of actions. -/
theorem pollForActions_ok (env : Env Call Call.Reply) (tr : List (Event Call))
    (response : Response) (actions : List Action)
    (hfetch : env tr (.fetch { url := BRIDGE_SERVER_URL ++ "/api/actions" }) = .ok response)
    (hok : response.ok = true) (hjson : response.json = .ok ⟨some actions⟩) :
    pollForActions.run env tr =
      (.ok (),
        ⟨.fetch { url := BRIDGE_SERVER_URL ++ "/api/actions" }, none⟩ ::
          (if actions.length > 0 then
            receivedEvent env tr actions ::
              ((actions.forM (fun action =>
                @Prog.perform Call Call.Reply (.processAction action))).run env
                  (tr ++ [⟨.fetch { url := BRIDGE_SERVER_URL ++ "/api/actions" }, none⟩,
                    receivedEvent env tr actions])).2
          else [])) := by
  unfold pollForActions
  rw [run_tryCatch_fetch_bind, hfetch]
  simp only [hok, Response.getJson, hjson, Prog.pure_bind_eq, Bool.not_true,
    Bool.false_eq_true, if_false]
  split
  · rename_i hlen
    have hloop := run_forM_processAction env actions
      (tr ++ [⟨.fetch { url := BRIDGE_SERVER_URL ++ "/api/actions" }, none⟩,
        receivedEvent env tr actions])
    rw [Prog.run_tryCatch_of_ok env _ _ _ ()]
    · unfold consoleLog
      rw [Prog.run_perform_bind]
      simp only [receivedEvent, List.append_assoc, List.singleton_append] at hloop ⊢
      rw [hloop.1]
    · unfold consoleLog
      rw [Prog.run_perform_bind]
      simp only [receivedEvent, List.append_assoc, List.singleton_append] at hloop ⊢
      rw [hloop.1]
  · simp

/-- Whatever list of actions a poll returns, `pollForActions` calls
`processAction` on every action of the list, in order, and ends without
throwing; and a call of `processAction` on an action whose type renders ends
without throwing, whatever the host capabilities and the result POST do. -/
theorem poll_invokes_every_action (env : Env Call Call.Reply) (tr : List (Event Call))
    (response : Response) (actions : List Action)
    (hfetch : env tr (.fetch { url := BRIDGE_SERVER_URL ++ "/api/actions" }) = .ok response)
    (hok : response.ok = true) (hjson : response.json = .ok ⟨some actions⟩) :
    invocations (pollForActions.run env tr).2 = actions ∧
      (pollForActions.run env tr).1 = .ok () ∧
      ∀ action ∈ actions, ∀ type, action.type.toJsString = .ok type →
        ∀ (env' : Env Call Call.Reply) (tr' : List (Event Call)),
          ((processAction action).run env' tr').1 = .ok () := by
  have hrun := pollForActions_ok env tr response actions hfetch hok hjson
  refine ⟨?_, ?_, ?_⟩
  · rw [hrun]
    split
    · have := (run_forM_processAction env actions
        (tr ++ [⟨.fetch { url := BRIDGE_SERVER_URL ++ "/api/actions" }, none⟩,
          receivedEvent env tr actions])).2
      simpa [invocations, receivedEvent] using this
    · have : actions = [] := by
        cases actions with
        | nil => rfl
        | cons a rest => simp at *
      simp [invocations, this]
  · rw [hrun]
  · intro action _ type ht env' tr'
    obtain ⟨r, hr, -, -⟩ := processActionResult_total env' tr' action type ht
    exact (processAction_spec env' tr' action r hr).1

/-- The run of a poll that is answered with two actions. -/
theorem poll_invokes_both :
    invocations (pollForActions.run sampleEnv []).2 = [flyAction, openMissing] ∧
      (pollForActions.run sampleEnv []).1 = .ok () :=
  ⟨(poll_invokes_every_action sampleEnv [] _ [flyAction, openMissing] rfl rfl rfl).1,
    (poll_invokes_every_action sampleEnv [] _ [flyAction, openMissing] rfl rfl rfl).2.1⟩

/-- C4 fails on the code: a poll is answered with the one action
`{id: "a1", type: {toString: 1}}`; `pollForActions` calls `processAction` on
it, and that call rejects with "Cannot convert object to primitive value",
whatever the host capabilities and the result POST do: the rendering of the
type in the log line is outside both `try` blocks of `processAction`. -/
theorem polled_action_rejects :
    oddTypeEnv [] (.fetch { url := BRIDGE_SERVER_URL ++ "/api/actions" })
        = .ok { ok := true, json := .ok ⟨some [oddType]⟩ } ∧
      invocations (pollForActions.run oddTypeEnv []).2 = [oddType] ∧
      ∀ (env : Env Call Call.Reply) (tr : List (Event Call)),
        ((processAction oddType).run env tr).1
          = .error ⟨"Cannot convert object to primitive value"⟩ :=
  ⟨rfl, rfl, fun env tr => by rw [processAction_throws env tr oddType _ rfl]⟩

/-- Whenever a Result is computed and serialises, and the id of the action
renders, `processAction` makes exactly one `fetch`: the POST of the Result to
the result endpoint of the action, and the Result carries the id of the
action. -/
theorem processAction_posts_once (env : Env Call Call.Reply) (tr : List (Event Call))
    (action : Action) (r : Result) (id : String)
    (hr : ((processActionResult action).run env tr).1 = .ok r)
    (hid : action.id.toJsString = .ok id)
    (hser : ∀ message, r.data ≠ .commandResult (.unserialisable message)) :
    fetches ((processAction action).run env tr).2
        = [{ url := BRIDGE_SERVER_URL ++ "/api/actions/" ++ id ++ "/result",
             method := "POST",
             headers := [("Content-Type", "application/json")],
             body := some r }] ∧
      r.action_id = action.id := by
  cases ht : action.type.toJsString with
  | error e =>
      rw [processActionResult_throws env tr action e ht] at hr
      cases hr
  | ok type =>
      obtain ⟨r', hr', hnofetch, hrid⟩ := processActionResult_total env tr action type ht
      rw [hr] at hr'
      cases hr'
      have hspec := processAction_spec env tr action r hr
      rw [hspec.2.2, hnofetch, sendResult_fetches env _ action r id hid hser]
      exact ⟨rfl, hrid⟩

/-- An action whose id does not render is never posted either: the template
literal of the URL throws inside the second `try`, before `fetch` is called,
and the `catch` only logs. -/
theorem unrenderable_id_never_posted :
    fetches ((processAction oddId).run sampleEnv []).2 = [] ∧
      ((processAction oddId).run sampleEnv []).1 = .ok () :=
  ⟨rfl, rfl⟩

/-- C5 fails on the code: for an executeCommand action whose host command
gives back a value that `JSON.stringify` rejects, the handler succeeds, and
`processAction` ends without a single `fetch`: no Result is posted. -/
theorem unserialisable_result_never_posted :
    (∃ r, ((processActionResult runCommand).run sampleEnv []).1 = .ok r ∧
      r.success = true ∧
      r.data = .commandResult (.unserialisable "Converting circular structure to JSON")) ∧
      fetches ((processAction runCommand).run sampleEnv []).2 = [] ∧
      ((processAction runCommand).run sampleEnv []).1 = .ok () :=
  ⟨⟨_, rfl, rfl, rfl⟩, rfl, rfl⟩

/-- C6: the Result computed by `processAction` has a non-null `error` if and
only if its `success` is false, for every action and every behaviour of the
host: every Result the first half of `processAction` comes to is such, and it
comes to one whenever the type of the action renders (as every type does that
is not an object with a `toString` of its own, or an array with such an item). -/
theorem error_iff_not_success (env : Env Call Call.Reply) (tr : List (Event Call))
    (action : Action) :
    (∀ r, ((processActionResult action).run env tr).1 = .ok r →
      (r.error ≠ none ↔ r.success = false)) ∧
    (∀ type, action.type.toJsString = .ok type →
      ∃ r, ((processActionResult action).run env tr).1 = .ok r ∧
        (r.error ≠ none ↔ r.success = false)) := by
  have key : ∀ type, action.type.toJsString = .ok type →
      ∃ r, ((processActionResult action).run env tr).1 = .ok r ∧
        (r.error ≠ none ↔ r.success = false) := by
    intro type ht
    by_cases h : action.type ∈ knownTypes
    · obtain ⟨out, ⟨r, hr, -, -, hcases⟩, hrun⟩ := processActionResult_known env tr action h
      refine ⟨r, by rw [hrun]; exact hr, ?_⟩
      rcases hcases with ⟨hs, he, -⟩ | ⟨hs, -, -, msg, he⟩ | ⟨hs, -, err, he, -⟩ <;>
        simp [hs, he]
    · rw [processActionResult_unknown env tr action type h ht]
      exact ⟨_, rfl, by simp⟩
  refine ⟨?_, key⟩
  intro r hr
  cases ht : action.type.toJsString with
  | error e =>
      rw [processActionResult_throws env tr action e ht] at hr
      cases hr
  | ok type =>
      obtain ⟨r', hr', hiff⟩ := key type ht
      rw [hr] at hr'
      cases hr'
      exact hiff

/-- C6, at an openFile action for a missing file: a Result is computed, and
its `error` is non-null exactly when its `success` is false. -/
theorem error_iff_not_success_witness :
    ∃ r, ((processActionResult openMissing).run sampleEnv []).1 = .ok r ∧
      (r.error ≠ none ↔ r.success = false) :=
  (error_iff_not_success sampleEnv [] openMissing).2 "openFile" rfl

end Extension

/-! ## The producer: lemmas and claims -/

namespace Client

@[simp] theorem run_request (env : Env Call Call.Reply) (req : Request)
    (tr : List (Event Call)) :
    (fetch req).run env tr
      = (env tr (.fetch req), [⟨.fetch req, outcomeError (env tr (.fetch req))⟩]) :=
  Prog.run_await env (.fetch req) tr

theorem run_request_bind {β : Type} (env : Env Call Call.Reply) (req : Request)
    (f : Response → Lib β) (tr : List (Event Call)) :
    (fetch req >>= f).run env tr =
      match env tr (.fetch req) with
      | .ok v =>
          (((f v).run env (tr ++ [⟨.fetch req, none⟩])).1,
            ⟨.fetch req, none⟩ :: ((f v).run env (tr ++ [⟨.fetch req, none⟩])).2)
      | .error e => (.error e, [⟨.fetch req, some e⟩]) := by
  simp only [fetch, Prog.await, Bind.bind, Prog.bind, Prog.run]
  cases env tr (.fetch req) <;> rfl

theorem run_tryCatch_request_bind {β : Type} (env : Env Call Call.Reply) (req : Request)
    (f : Response → Lib β) (h : JsError → Lib β) (tr : List (Event Call)) :
    (tryCatch (fetch req >>= f) h).run env tr =
      match env tr (.fetch req) with
      | .ok v =>
          (((tryCatch (f v) h).run env (tr ++ [⟨.fetch req, none⟩])).1,
            ⟨.fetch req, none⟩ ::
              ((tryCatch (f v) h).run env (tr ++ [⟨.fetch req, none⟩])).2)
      | .error e =>
          (((h e).run env (tr ++ [⟨.fetch req, some e⟩])).1,
            ⟨.fetch req, some e⟩ :: ((h e).run env (tr ++ [⟨.fetch req, some e⟩])).2) := by
  simp only [fetch, Prog.await, Bind.bind, Prog.bind, MonadExcept.tryCatch, Prog.tryCatch,
    Prog.run]
  cases env tr (.fetch req) <;> rfl

@[simp] theorem run_report (env : Env Call Call.Reply) (args : List String)
    (tr : List (Event Call)) :
    (consoleError args).run env tr
      = (.ok (), [⟨.consoleError args, outcomeError (env tr (.consoleError args))⟩]) :=
  rfl

theorem run_report_bind {β : Type} (env : Env Call Call.Reply) (args : List String)
    (f : Unit → Lib β) (tr : List (Event Call)) :
    (consoleError args >>= f).run env tr =
      (((f ()).run env
          (tr ++ [⟨.consoleError args, outcomeError (env tr (.consoleError args))⟩])).1,
        ⟨.consoleError args, outcomeError (env tr (.consoleError args))⟩ ::
          ((f ()).run env
            (tr ++ [⟨.consoleError args, outcomeError (env tr (.consoleError args))⟩])).2) :=
  Prog.run_perform_bind env (.consoleError args) f tr

theorem run_sleep_bind {β : Type} (env : Env Call Call.Reply) (ms : Nat)
    (f : Unit → Lib β) (tr : List (Event Call)) :
    (sleep ms >>= f).run env tr =
      (((f ()).run env
          (tr ++ [⟨.setTimeout ms, outcomeError (env tr (.setTimeout ms))⟩])).1,
        ⟨.setTimeout ms, outcomeError (env tr (.setTimeout ms))⟩ ::
          ((f ()).run env
            (tr ++ [⟨.setTimeout ms, outcomeError (env tr (.setTimeout ms))⟩])).2) :=
  Prog.run_perform_bind env (.setTimeout ms) f tr

/-- C10: when `/health` and `/api/context` both answer ok, `checkConnection`
returns false and sets `connected` to false if `project_root` of the context
is null, and returns true and sets `connected` to true if it is a path. -/
theorem checkConnection_follows_project_root (env : Env Call Call.Reply)
    (tr : List (Event Call)) (self : Claursor) (health contextResponse : Response)
    (context : JsVal)
    (hhealth : env tr (.fetch (healthRequest self)) = .ok health)
    (hhealthOk : health.ok = true)
    (hcontext : env (tr ++ [⟨.fetch (healthRequest self), none⟩])
      (.fetch (contextRequest self)) = .ok contextResponse)
    (hcontextOk : contextResponse.ok = true)
    (hjson : contextResponse.json = .ok context) :
    (context.getProp "project_root" = .ok .null →
      ((checkConnection self).run env tr).1
        = .ok (false, { self with connected := false })) ∧
    (∀ path, context.getProp "project_root" = .ok (.str path) →
      ((checkConnection self).run env tr).1
        = .ok (true, { self with connected := true })) := by
  simp only [healthRequest, contextRequest] at hhealth hcontext
  unfold checkConnection
  rw [run_tryCatch_request_bind, hhealth]
  simp only [hhealthOk, if_true]
  rw [run_tryCatch_request_bind, hcontext]
  simp only [hcontextOk, if_true, Response.getJson, hjson, getProp]
  constructor
  · intro h
    simp [h, Prog.run_tryCatch, Prog.run_bind, JsVal.notNull]
  · intro path h
    simp [h, Prog.run_tryCatch, Prog.run_bind, JsVal.notNull]

/-- C10, at a context with a null `project_root` and at one with a path. -/
theorem checkConnection_follows_project_root_witness :
    ((checkConnection {}).run (contextEnv .null) []).1
        = .ok (false, { connected := false }) ∧
      ((checkConnection {}).run (contextEnv (.str "/home/project")) []).1
        = .ok (true, { connected := true }) :=
  ⟨(checkConnection_follows_project_root (contextEnv .null) [] {} _ _ _
      rfl rfl rfl rfl rfl).1 rfl,
   (checkConnection_follows_project_root (contextEnv (.str "/home/project")) [] {} _ _ _
      rfl rfl rfl rfl rfl).2 "/home/project" rfl⟩

/-- A round that finds no Result: it waits once, asks once (when the
identifier renders), and tells the loop to go on. -/
theorem pollResultOnce_none (env : Env Call Call.Reply) (tr : List (Event Call))
    (self : Claursor) (actionId : JsVal)
    (hno : ∀ id, actionId.toJsString = .ok id →
      ¬ Present (env (tr ++ [waitEvent env tr]) (.fetch (resultRequest self id)))) :
    ∃ evs, (pollResultOnce self actionId).run env tr = (.ok none, evs) ∧
      waits evs = [500] ∧
      ∀ id, actionId.toJsString = .ok id →
        timeline evs = [.setTimeout 500, .fetch (resultRequest self id)] ∧
        fetchCount evs = 1 := by
  unfold pollResultOnce
  rw [run_sleep_bind]
  cases hid : actionId.toJsString with
  | error e =>
      simp [Prog.run_tryCatch, Prog.run_bind, run_report_bind, waits]
  | ok id =>
      have hno' := hno id hid
      simp only [Prog.ofExcept, resultRequest, waitEvent] at hno' ⊢
      simp only [Prog.ret, Present] at hno'
      show ∃ evs, _
      rw [show (Prog.ret id : Lib String) = pure id from rfl, Prog.pure_bind_eq,
        run_tryCatch_request_bind]
      split
      · rename_i response heq
        cases hok : response.ok with
        | false =>
            simp [hok, waits, timeline, fetchCount]
        | true =>
            cases hjson : response.json with
            | error e =>
                simp [hok, Response.getJson, hjson, Prog.run_tryCatch, Prog.run_bind,
                  run_report_bind, waits, timeline, fetchCount]
            | ok v =>
                exact absurd ⟨response, v, heq, hok, hjson⟩ hno'
      · simp [run_report_bind, waits, timeline, fetchCount]

/-- A round that finds a Result: it waits once, asks once, and gives the body
of the response back. -/
theorem pollResultOnce_some (env : Env Call Call.Reply) (tr : List (Event Call))
    (self : Claursor) (actionId : JsVal) (id : String) (result : JsVal)
    (hid : actionId.toJsString = .ok id)
    (hyes : env (tr ++ [waitEvent env tr]) (.fetch (resultRequest self id))
      = .ok { ok := true, json := .ok result }) :
    ∃ evs, (pollResultOnce self actionId).run env tr = (.ok (some result), evs) ∧
      waits evs = [500] ∧
      timeline evs = [.setTimeout 500, .fetch (resultRequest self id)] := by
  unfold pollResultOnce
  rw [run_sleep_bind, hid]
  simp only [Prog.ofExcept, resultRequest, waitEvent] at hyes ⊢
  rw [show (Prog.ret id : Lib String) = pure id from rfl, Prog.pure_bind_eq,
    run_tryCatch_request_bind, hyes]
  simp [Response.getJson, Prog.run_tryCatch, Prog.run_bind, waits, timeline]

theorem fetchCount_append (xs ys : List (Event Call)) :
    fetchCount (xs ++ ys) = fetchCount xs + fetchCount ys := by
  simp [fetchCount]

/-- The loop on a bridge that never has a Result: every round waits and finds
nothing, and `null` comes out when the rounds are used up. -/
theorem waitRounds_none (env : Env Call Call.Reply) (self : Claursor) (actionId : JsVal)
    (hno : ∀ history id, actionId.toJsString = .ok id →
      ¬ Present (env history (.fetch (resultRequest self id))))
    (n : Nat) (tr : List (Event Call)) :
    ((waitRounds self actionId n).run env tr).1 = .ok .null ∧
      waits ((waitRounds self actionId n).run env tr).2 = List.replicate n 500 ∧
      ∀ id, actionId.toJsString = .ok id →
        timeline ((waitRounds self actionId n).run env tr).2
          = attempts (resultRequest self id) n := by
  induction n generalizing tr with
  | zero => exact ⟨rfl, rfl, fun _ _ => rfl⟩
  | succ n ih =>
      obtain ⟨evs, hrun, hwaits, hline⟩ :=
        pollResultOnce_none env tr self actionId (fun id hid => hno _ id hid)
      obtain ⟨h1, h2, h3⟩ := ih (tr ++ evs)
      simp only [waitRounds]
      rw [Prog.run_bind, hrun]
      refine ⟨h1, ?_, ?_⟩
      · simp only [waits, List.filterMap_append] at hwaits h2 ⊢
        rw [hwaits, h2]
        rfl
      · intro id hid
        have hl := (hline id hid).1
        have h3' := h3 id hid
        simp only [timeline, List.filterMap_append] at hl h3' ⊢
        rw [hl, h3']
        rfl

/-- The history after `j + 1` rounds of a wait is the history after `j` rounds
of the wait that begins when the first round is over. -/
theorem historyAfter_succ (env : Env Call Call.Reply) (self : Claursor) (actionId : JsVal)
    (tr : List (Event Call)) (j : Nat) :
    historyAfter env self actionId tr (j + 1)
      = historyAfter env self actionId (historyAfter env self actionId tr 1) j := by
  induction j with
  | zero => rfl
  | succ j ih =>
      rw [historyAfter, ih]
      rfl

/-- The loop whose round `j + 1` is the first in which the bridge answers with
a Result: the loop gives that Result back after `j + 1` rounds. -/
theorem waitRounds_first (env : Env Call Call.Reply) (self : Claursor) (actionId : JsVal)
    (id : String) (result : JsVal) (hid : actionId.toJsString = .ok id)
    (j : Nat) (n : Nat) (tr : List (Event Call)) (hjn : j < n)
    (hearlier : ∀ i, i < j → ¬ Present (pollAnswer env self actionId id tr i))
    (hfirst : ∃ response, pollAnswer env self actionId id tr j = .ok response ∧
      response.ok = true ∧ response.json = .ok result) :
    ((waitRounds self actionId n).run env tr).1 = .ok result ∧
      waits ((waitRounds self actionId n).run env tr).2 = List.replicate (j + 1) 500 ∧
      timeline ((waitRounds self actionId n).run env tr).2
        = attempts (resultRequest self id) (j + 1) := by
  induction j generalizing n tr with
  | zero =>
      obtain ⟨n, rfl⟩ : ∃ m, n = m + 1 := ⟨n - 1, by omega⟩
      obtain ⟨response, hanswer, hok, hjson⟩ := hfirst
      have hyes : env (tr ++ [waitEvent env tr]) (.fetch (resultRequest self id))
          = .ok { ok := true, json := .ok result } := by
        obtain ⟨ok, json⟩ := response
        simp only at hok hjson
        subst hok hjson
        exact hanswer
      obtain ⟨evs, hrun, hwaits, hline⟩ :=
        pollResultOnce_some env tr self actionId id result hid hyes
      simp only [waitRounds]
      rw [Prog.run_bind, hrun]
      simp only [Prog.run_pure, List.append_nil]
      exact ⟨trivial, hwaits, hline⟩
  | succ j ih =>
      obtain ⟨n, rfl⟩ : ∃ m, n = m + 1 := ⟨n - 1, by omega⟩
      obtain ⟨evs, hrun, hwaits, hline⟩ :=
        pollResultOnce_none env tr self actionId (fun id' hid' => by
          have : id' = id := by
            rw [hid] at hid'
            cases hid'
            rfl
          subst this
          exact hearlier 0 (by omega))
      have hone : historyAfter env self actionId tr 1 = tr ++ evs := by
        simp only [historyAfter, hrun]
      have hshift : ∀ i, pollAnswer env self actionId id (tr ++ evs) i
          = pollAnswer env self actionId id tr (i + 1) := by
        intro i
        unfold pollAnswer
        rw [historyAfter_succ, hone]
      obtain ⟨h1, h2, h3⟩ := ih n (tr ++ evs) (by omega)
        (fun i hlt => by rw [hshift]; exact hearlier (i + 1) (by omega))
        (by rw [hshift]; exact hfirst)
      simp only [waitRounds]
      rw [Prog.run_bind, hrun]
      refine ⟨h1, ?_, ?_⟩
      · simp only [waits, List.filterMap_append] at hwaits h2 ⊢
        rw [hwaits, h2]
        rfl
      · have hl := (hline id hid).1
        simp only [timeline, List.filterMap_append] at hl h3 ⊢
        rw [hl, h3]
        rfl

/-- C7: on a bridge that never has a Result (every GET of the result endpoint
fails or is not ok), `_waitForActionResult` returns `null` after exactly 10
attempts, each preceded by a 500 ms wait: 10 waits of 500 ms, 5000 ms in all,
and no return before. -/
theorem wait_times_out (env : Env Call Call.Reply) (tr : List (Event Call))
    (self : Claursor) (actionId : JsVal)
    (hnever : ∀ history id, actionId.toJsString = .ok id →
      NoResult (env history (.fetch (resultRequest self id)))) :
    ((_waitForActionResult self actionId).run env tr).1 = .ok .null ∧
      waits ((_waitForActionResult self actionId).run env tr).2 = List.replicate 10 500 ∧
      (waits ((_waitForActionResult self actionId).run env tr).2).sum = 5000 ∧
      ∀ id, actionId.toJsString = .ok id →
        timeline ((_waitForActionResult self actionId).run env tr).2
          = attempts (resultRequest self id) 10 := by
  have hno : ∀ history id, actionId.toJsString = .ok id →
      ¬ Present (env history (.fetch (resultRequest self id))) := by
    intro history id hid ⟨response, _, heq, hok, _⟩
    have := hnever history id hid response heq
    rw [this] at hok
    cases hok
  obtain ⟨h1, h2, h3⟩ := waitRounds_none env self actionId hno 10 tr
  unfold _waitForActionResult
  refine ⟨h1, h2, ?_, h3⟩
  rw [h2]
  rfl

/-- C7, on a bridge that answers every request with a response that is not
ok. -/
theorem wait_times_out_witness :
    ((_waitForActionResult {} (.str "a1")).run refusingEnv []).1 = .ok .null ∧
      waits ((_waitForActionResult {} (.str "a1")).run refusingEnv []).2
        = List.replicate 10 500 ∧
      (waits ((_waitForActionResult {} (.str "a1")).run refusingEnv []).2).sum = 5000 ∧
      ∀ id, (JsVal.str "a1").toJsString = .ok id →
        timeline ((_waitForActionResult {} (.str "a1")).run refusingEnv []).2
          = attempts (resultRequest {} id) 10 :=
  wait_times_out refusingEnv [] {} (.str "a1") (by
    intro history id _ response heq
    cases heq
    rfl)

/-- C8: if the `k`-th request for the result that the wait makes
(1 ≤ k ≤ 10) is the first one answered with a Result, `_waitForActionResult`
returns the body of that response after exactly `k` attempts, each preceded
by a 500 ms wait (`k` times 500 ms in all), and asks no further; an earlier
attempt that failed, by a thrown error too, does not end the wait.  The
answers are those the bridge gives in this run: to the request of round `j + 1`,
after the history before the wait and the calls of the `j` rounds before it. -/
theorem wait_returns_first_result (env : Env Call Call.Reply) (tr : List (Event Call))
    (self : Claursor) (actionId : JsVal) (id : String) (result : JsVal) (k : Nat)
    (hid : actionId.toJsString = .ok id) (hk1 : 1 ≤ k) (hk10 : k ≤ 10)
    (hearlier : ∀ j, j + 1 < k → ¬ Present (pollAnswer env self actionId id tr j))
    (hfirst : ∃ response, pollAnswer env self actionId id tr (k - 1) = .ok response ∧
      response.ok = true ∧ response.json = .ok result) :
    ((_waitForActionResult self actionId).run env tr).1 = .ok result ∧
      timeline ((_waitForActionResult self actionId).run env tr).2
        = attempts (resultRequest self id) k ∧
      (waits ((_waitForActionResult self actionId).run env tr).2).sum = k * 500 := by
  obtain ⟨j, rfl⟩ : ∃ j, k = j + 1 := ⟨k - 1, by omega⟩
  obtain ⟨h1, h2, h3⟩ := waitRounds_first env self actionId id result hid j 10 tr
    (by omega) (fun i hlt => hearlier i (by omega)) hfirst
  unfold _waitForActionResult
  refine ⟨h1, h3, ?_⟩
  rw [h2]
  simp

/-- C8, for a wait that begins after the enqueue request, on a bridge on
which the first request for the result throws and the second carries the
Result: `k = 2`. -/
theorem wait_returns_first_result_witness :
    (pollAnswer retryEnv {} (.str "a1") "a1" [⟨.fetch sampleEnqueue, none⟩] 0
        = .error ⟨"socket hang up"⟩ ∧
      pollAnswer retryEnv {} (.str "a1") "a1" [⟨.fetch sampleEnqueue, none⟩] 1
        = .ok { ok := true, json := .ok sampleResult }) ∧
    ((_waitForActionResult {} (.str "a1")).run retryEnv [⟨.fetch sampleEnqueue, none⟩]).1
        = .ok sampleResult ∧
      timeline
          ((_waitForActionResult {} (.str "a1")).run retryEnv
            [⟨.fetch sampleEnqueue, none⟩]).2
        = attempts (resultRequest {} "a1") 2 ∧
      (waits
          ((_waitForActionResult {} (.str "a1")).run retryEnv
            [⟨.fetch sampleEnqueue, none⟩]).2).sum
        = 2 * 500 :=
  ⟨⟨rfl, rfl⟩,
    wait_returns_first_result retryEnv [⟨.fetch sampleEnqueue, none⟩] {} (.str "a1") "a1"
      sampleResult 2 rfl (by decide) (by decide)
      (by
        intro j hlt ⟨response, _, heq, _, _⟩
        have hj : j = 0 := by omega
        subst hj
        have herr : pollAnswer retryEnv {} (.str "a1") "a1" [⟨.fetch sampleEnqueue, none⟩] 0
            = .error ⟨"socket hang up"⟩ := rfl
        rw [herr] at heq
        cases heq)
      ⟨{ ok := true, json := .ok sampleResult }, rfl, rfl, rfl⟩⟩

theorem get_ne_post : ¬ ("GET" = "POST") := by decide

/-- The connection check sends no POST request. -/
theorem checkConnection_no_post (env : Env Call Call.Reply) (tr : List (Event Call))
    (self : Claursor) :
    ∀ e ∈ ((checkConnection self).run env tr).2, isPost e = false := by
  unfold checkConnection
  rw [run_tryCatch_request_bind]
  split
  · split
    · rw [run_tryCatch_request_bind]
      split
      · split
        · rename_i contextResponse _ _
          cases hjson : contextResponse.json with
          | error e =>
              simp [Response.getJson, hjson, Prog.run_tryCatch, Prog.run_bind,
                run_report_bind, isPost, get_ne_post]
          | ok context =>
              cases hroot : context.getProp "project_root" with
              | error e =>
                  simp [Response.getJson, hjson, getProp, hroot, Prog.run_tryCatch,
                    Prog.run_bind, run_report_bind, isPost, get_ne_post]
              | ok root =>
                  simp [Response.getJson, hjson, getProp, hroot, Prog.run_tryCatch,
                    Prog.run_bind, run_report_bind, isPost, get_ne_post]
        · simp [isPost, get_ne_post]
      · simp [run_report_bind, isPost, get_ne_post]
    · simp [isPost, get_ne_post]
  · simp [run_report_bind, isPost, get_ne_post]

/-- The guard of the public methods when the flag is not set: it is the
negation of what the connection check gives. -/
theorem notConnected_run (env : Env Call Call.Reply) (tr : List (Event Call))
    (self self' : Claursor) (connected : Bool) (hflag : self.connected = false)
    (hcheck : ((checkConnection self).run env tr).1 = .ok (connected, self')) :
    (notConnected self).run env tr
      = (.ok (!connected, self'), ((checkConnection self).run env tr).2) := by
  unfold notConnected
  simp only [hflag, Bool.not_false, if_true]
  rw [Prog.run_bind]
  split
  · rename_i a evs heq
    rw [heq] at hcheck
    cases hcheck
    simp [heq]
  · rename_i e evs heq
    rw [heq] at hcheck
    cases hcheck

/-- C9: for each of getSelection, replaceSelection, openFile and showMessage,
if the `connected` flag is false and the connection check returns false, the
call returns its sentinel (`null` for getSelection, `false` for the others)
without sending any POST request, so without enqueueing. -/
theorem not_connected_fails_fast (env : Env Call Call.Reply) (tr : List (Event Call))
    (self self' : Claursor) (text filePath message messageType : JsVal)
    (hflag : self.connected = false)
    (hcheck : ((checkConnection self).run env tr).1 = .ok (false, self')) :
    (((getSelection self).run env tr).1 = .ok (.null, self') ∧
      ∀ e ∈ ((getSelection self).run env tr).2, isPost e = false) ∧
    (((replaceSelection self text).run env tr).1 = .ok (.bool false, self') ∧
      ∀ e ∈ ((replaceSelection self text).run env tr).2, isPost e = false) ∧
    (((openFile self filePath).run env tr).1 = .ok (.bool false, self') ∧
      ∀ e ∈ ((openFile self filePath).run env tr).2, isPost e = false) ∧
    (((showMessage self message messageType).run env tr).1 = .ok (.bool false, self') ∧
      ∀ e ∈ ((showMessage self message messageType).run env tr).2, isPost e = false) := by
  have hguard := notConnected_run env tr self self' false hflag hcheck
  have hpost := checkConnection_no_post env tr self
  refine ⟨?_, ?_, ?_, ?_⟩
  · unfold getSelection
    rw [Prog.run_bind, hguard]
    simp only [Bool.not_false, if_true, run_report_bind, Prog.run_pure]
    refine ⟨trivial, ?_⟩
    intro e he
    rcases List.mem_append.mp he with he | he
    · exact hpost e he
    · simp only [List.mem_singleton] at he
      rw [he]
      rfl
  · unfold replaceSelection
    rw [Prog.run_bind, hguard]
    simp only [Bool.not_false, if_true, run_report_bind, Prog.run_pure]
    refine ⟨trivial, ?_⟩
    intro e he
    rcases List.mem_append.mp he with he | he
    · exact hpost e he
    · simp only [List.mem_singleton] at he
      rw [he]
      rfl
  · unfold openFile
    rw [Prog.run_bind, hguard]
    simp only [Bool.not_false, if_true, run_report_bind, Prog.run_pure]
    refine ⟨trivial, ?_⟩
    intro e he
    rcases List.mem_append.mp he with he | he
    · exact hpost e he
    · simp only [List.mem_singleton] at he
      rw [he]
      rfl
  · unfold showMessage
    rw [Prog.run_bind, hguard]
    simp only [Bool.not_false, if_true, run_report_bind, Prog.run_pure]
    refine ⟨trivial, ?_⟩
    intro e he
    rcases List.mem_append.mp he with he | he
    · exact hpost e he
    · simp only [List.mem_singleton] at he
      rw [he]
      rfl

/-- C9, on a bridge that answers every request with a response that is not
ok. -/
theorem not_connected_fails_fast_witness :
    (({} : Claursor).connected = false ∧
      ((checkConnection {}).run refusingEnv []).1 = .ok (false, {})) ∧
    (((getSelection {}).run refusingEnv []).1 = .ok (.null, {}) ∧
      ∀ e ∈ ((getSelection {}).run refusingEnv []).2, isPost e = false) ∧
    (((replaceSelection {} (.str "x")).run refusingEnv []).1 = .ok (.bool false, {}) ∧
      ∀ e ∈ ((replaceSelection {} (.str "x")).run refusingEnv []).2, isPost e = false) ∧
    (((openFile {} (.str "/a.txt")).run refusingEnv []).1 = .ok (.bool false, {}) ∧
      ∀ e ∈ ((openFile {} (.str "/a.txt")).run refusingEnv []).2, isPost e = false) ∧
    (((showMessage {} (.str "hi") .undefined).run refusingEnv []).1
        = .ok (.bool false, {}) ∧
      ∀ e ∈ ((showMessage {} (.str "hi") .undefined).run refusingEnv []).2,
        isPost e = false) :=
  ⟨⟨rfl, rfl⟩,
    not_connected_fails_fast refusingEnv [] {} {} (.str "x") (.str "/a.txt") (.str "hi")
      .undefined rfl rfl⟩

end Client

/-! ## The consumer: further claims -/

namespace Extension

/-- C16: for an openFile action with a non-empty path, if the host fails
to open the document, or opens it and fails to show it, with exception
message `m`, the Result is `success = false`, `error` the text "Error opening file: "
followed by `m`, and `data` null. -/
theorem open_failure_result (env : Env Call Call.Reply) (tr : List (Event Call))
    (action : Action) (p m : String)
    (htype : action.type = .str "openFile") (hpath : action.path = .str p)
    (hp : p ≠ "")
    (hfail :
      env (tr ++ [processingEvent env tr action]) (.host (.openTextDocument (.str p)))
          = .error ⟨m⟩ ∨
      ∃ document,
        env (tr ++ [processingEvent env tr action]) (.host (.openTextDocument (.str p)))
          = .ok document ∧
        env (tr ++ [processingEvent env tr action,
              ⟨.host (.openTextDocument (.str p)), none⟩])
            (.host (.showTextDocument document)) = .error ⟨m⟩) :
    ((processActionResult action).run env tr).1
      = .ok { action_id := action.id, success := false,
              error := some ("Error opening file: " ++ m), data := .null } := by
  have htruthy : (JsVal.str p).truthy = true := by simp [JsVal.truthy, hp]
  rw [processActionResult_run env tr action "openFile" (by rw [htype, toJsString_str])]
  generalize processingEvent env tr action = opening at hfail ⊢
  obtain ⟨id, type, path, edits, command, args, message, messageType, options, text⟩ := action
  simp only at htype hpath
  subst htype hpath
  unfold dispatch
  simp only [handleOpenFile, htruthy, Bool.not_true, Bool.false_eq_true, if_false]
  rw [Prog.run_tryCatch, run_tryCatch_host_bind]
  rcases hfail with h | ⟨document, h1, h2⟩
  · simp [h, initialResult]
  · simp only [h1]
    rw [run_tryCatch_host_bind]
    simp only [List.append_assoc, List.singleton_append, List.cons_append,
      List.nil_append] at h2 ⊢
    simp [h2, initialResult]

/-- C16, at an openFile action for the missing file "/missing". -/
theorem open_failure_result_witness :
    ("/missing" ≠ "" ∧
      sampleEnv ([] ++ [processingEvent sampleEnv [] openMissing])
          (.host (.openTextDocument (.str "/missing")))
        = .error ⟨"ENOENT: no such file or directory"⟩) ∧
      ((processActionResult openMissing).run sampleEnv []).1
        = .ok { action_id := .str "a3", success := false,
                error := some ("Error opening file: "
                  ++ "ENOENT: no such file or directory"),
                data := .null } :=
  ⟨⟨by decide, rfl⟩,
    open_failure_result sampleEnv [] openMissing "/missing"
      "ENOENT: no such file or directory" rfl rfl (by decide) (Or.inl rfl)⟩

/-- C17: a replaceSelection action whose text is the empty string is treated
as one without text: the handler returns `success = false` with `error`
"Missing text" and makes no call at all, and the whole of `processAction`
uses no host capability, so no edit replaces the selection by the empty
text. -/
theorem empty_text_is_missing (env : Env Call Call.Reply) (tr : List (Event Call))
    (action : Action) (htype : action.type = .str "replaceSelection")
    (htext : action.text = .str "") :
    (handleReplaceSelection action (initialResult action)).run env tr
        = (.ok { action_id := action.id, success := false,
                 error := some "Missing text", data := .null }, []) ∧
      ((processActionResult action).run env tr).1
        = .ok { action_id := action.id, success := false,
                error := some "Missing text", data := .null } ∧
      ∀ e ∈ ((processAction action).run env tr).2, isHost e = false := by
  have hhandler : (handleReplaceSelection action (initialResult action)).run env tr
      = (.ok { action_id := action.id, success := false,
               error := some "Missing text", data := .null }, []) := by
    simp [handleReplaceSelection, htext, JsVal.truthy, initialResult]
  have hrun : (processActionResult action).run env tr
      = (.ok { action_id := action.id, success := false,
               error := some "Missing text", data := .null },
          [processingEvent env tr action]) := by
    rw [processActionResult_run env tr action "replaceSelection"
      (by rw [htype, toJsString_str])]
    unfold dispatch
    simp [htype, handleReplaceSelection, htext, JsVal.truthy, initialResult]
  have hspec := processAction_spec env tr action _ (by rw [hrun])
  refine ⟨hhandler, by rw [hrun], ?_⟩
  intro e he
  cases hhost : isHost e with
  | false => rfl
  | true =>
      have hmem := hspec.2.1 e he hhost
      rw [hrun] at hmem
      simp only [List.mem_singleton] at hmem
      rw [hmem] at hhost
      simp [isHost, processingEvent, processingLine] at hhost

/-- C17, at a replaceSelection action with the empty text. -/
theorem empty_text_is_missing_witness :
    (handleReplaceSelection emptyReplace (initialResult emptyReplace)).run sampleEnv []
        = (.ok { action_id := .str "a5", success := false,
                 error := some "Missing text", data := .null }, []) ∧
      ((processActionResult emptyReplace).run sampleEnv []).1
        = .ok { action_id := .str "a5", success := false,
                error := some "Missing text", data := .null } ∧
      ∀ e ∈ ((processAction emptyReplace).run sampleEnv []).2, isHost e = false :=
  empty_text_is_missing sampleEnv [] emptyReplace rfl rfl

end Extension

/-! ## The producer: further claims -/

namespace Client

/-- C11 fails on the code: when `/health` and `/api/context` both answer ok and
the context has no `project_root` field, `checkConnection` returns true and
sets `connected` to true, since the absent field reads as `undefined`, which
is not `null`. -/
theorem absent_project_root_connects :
    (JsVal.obj [("files_open", .arr [])]).getProp "project_root" = .ok .undefined ∧
      ((checkConnection {}).run bareContextEnv []).1
        = .ok (true, { connected := true }) :=
  ⟨rfl, rfl⟩

/-- C13 fails on the code: on an instance that is connected, with the enqueue
accepted and no Result ever there, `replaceSelection`, `openFile` and
`showMessage` resolve to `null`, which is not a boolean. -/
theorem timeout_gives_null_not_false :
    ((replaceSelection { connected := true } (.str "x")).run acceptingEnv []).1
        = .ok (.null, { connected := true }) ∧
      ((openFile { connected := true } (.str "/a.txt")).run acceptingEnv []).1
        = .ok (.null, { connected := true }) ∧
      ((showMessage { connected := true } (.str "hi")).run acceptingEnv []).1
        = .ok (.null, { connected := true }) :=
  ⟨rfl, rfl, rfl⟩

end Client

namespace Client

theorem api_ne_health (b rest : String) : b ++ "/api" ++ rest ≠ b ++ "/health" := by
  intro h
  have h' := congrArg String.data h
  simp only [String.data_append, List.append_assoc, List.append_cancel_left_eq] at h'
  simp at h'

theorem lastRequestFailed_append (env : Env Call Call.Reply) (tr xs ys : List (Event Call))
    (acc : Option Bool) :
    lastRequestFailed env tr (xs ++ ys) acc
      = lastRequestFailed env (tr ++ xs) ys (lastRequestFailed env tr xs acc) := by
  induction xs generalizing tr acc with
  | nil => simp [lastRequestFailed]
  | cons x xs ih =>
      simp only [List.cons_append, lastRequestFailed]
      have := ih (tr ++ [x])
      simp only [List.append_assoc, List.singleton_append] at this
      exact this _

theorem getSelection_guarded (self : Claursor) :
    getSelection self = guarded .null (fun self =>
      tryCatch
        (do
          let response ← fetch
            { url := self.bridgeUrl ++ "/api/actions",
              method := "POST",
              headers := jsonHeaders,
              body := some (.obj [("type", .str "getSelection")]) }
          if response.ok then do
            let body ← response.getJson
            let action_id ← getProp body "action_id"
            let result ← _waitForActionResult self action_id
            let success ← resultSuccess result
            if success.truthy then getProp result "data" else pure .null
          else
            pure .null)
        (fun (error : JsError) => do
          consoleError ["Error getting selection:", error.message]
          pure .null)) self := rfl

theorem replaceSelection_guarded (self : Claursor) (text : JsVal) :
    replaceSelection self text = guarded (.bool false) (fun self =>
      enqueueAndWait self (.obj [("type", .str "replaceSelection"), ("text", text)])
        "Error replacing selection:") self := rfl

theorem context_ne_health (b : String) : ¬ (b ++ "/api/context" = b ++ "/health") := by
  intro h
  have h' := congrArg String.data h
  simp at h'

theorem actions_ne_health (b : String) : ¬ (b ++ "/api/actions" = b ++ "/health") := by
  intro h
  have h' := congrArg String.data h
  simp at h'

theorem result_ne_health (b id : String) :
    ¬ (b ++ "/api/actions/" ++ id ++ "/result" = b ++ "/health") := by
  intro h
  have h' := congrArg String.data h
  simp at h'

theorem file_ne_health (b : String) : ¬ (b ++ "/api/file" = b ++ "/health") := by
  intro h
  have h' := congrArg String.data h
  simp at h'

theorem fileQuery_ne_health (b path : String) :
    ¬ (b ++ "/api/file?path=" ++ path = b ++ "/health") := by
  intro h
  have h' := congrArg String.data h
  simp at h'

theorem execute_ne_health (b : String) : ¬ (b ++ "/api/execute" = b ++ "/health") := by
  intro h
  have h' := congrArg String.data h
  simp at h'

theorem getCurrentFile_body (env : Env Call Call.Reply) (self : Claursor)
    (tr : List (Event Call)) :
    BodySpec env self tr
      ((tryCatch
        (do
          let response ← fetch { url := self.bridgeUrl ++ "/api/context" }
          if response.ok then do
            let context ← response.getJson
            getProp context "current_file"
          else
            pure .null)
        (fun (error : JsError) => do
          consoleError ["Error getting current file:", error.message]
          pure .null)).run env tr) := by
  unfold BodySpec
  rw [run_tryCatch_request_bind]
  split
  · rename_i response heq
    cases hok : response.ok with
    | false =>
        simp [lastRequestFailed, failed, heq, hok, JsVal.truthy, context_ne_health]
    | true =>
        cases hjson : response.json with
        | error e =>
            simp [Response.getJson, hjson, Prog.run_tryCatch, Prog.run_bind,
              run_report_bind, lastRequestFailed, failed, heq, hok, JsVal.truthy,
              context_ne_health]
        | ok context =>
            cases hprop : context.getProp "current_file" with
            | error e =>
                simp [Response.getJson, hjson, getProp, hprop, Prog.run_tryCatch,
                  Prog.run_bind, run_report_bind, lastRequestFailed, failed, heq, hok,
                  JsVal.truthy, context_ne_health]
            | ok v =>
                simp [Response.getJson, hjson, getProp, hprop, Prog.run_tryCatch,
                  Prog.run_bind, run_report_bind, lastRequestFailed, failed, heq, hok,
                  JsVal.truthy, context_ne_health]
  · simp [run_report_bind, lastRequestFailed, failed, JsVal.truthy, context_ne_health]

theorem readFile_body (env : Env Call Call.Reply) (self : Claursor) (filePath : JsVal)
    (tr : List (Event Call)) :
    BodySpec env self tr
      ((tryCatch
        (do
          let path ← Prog.ofExcept filePath.toJsString
          let response ← fetch
            { url := self.bridgeUrl ++ "/api/file?path=" ++ encodeURIComponent path }
          if response.ok then do
            let data ← response.getJson
            getProp data "content"
          else
            pure .null)
        (fun (error : JsError) => do
          consoleError ["Error reading file:", error.message]
          pure .null)).run env tr) := by
  unfold BodySpec
  cases hpath : filePath.toJsString with
  | error e =>
      simp [Prog.ofExcept, Prog.run_tryCatch, Prog.run_bind, run_report_bind,
        lastRequestFailed, JsVal.truthy]
      refine ⟨_, rfl, ?_⟩
      simp [Prog.run, JsVal.truthy, lastRequestFailed, consoleError, Prog.perform,
        Bind.bind, Prog.bind]
  | ok path =>
      simp only [Prog.ofExcept]
      rw [show (Prog.ret path : Lib String) = pure path from rfl, Prog.pure_bind_eq,
        run_tryCatch_request_bind]
      split
      · rename_i response heq
        cases hok : response.ok with
        | false =>
            simp [lastRequestFailed, failed, heq, hok, JsVal.truthy, fileQuery_ne_health]
        | true =>
            cases hjson : response.json with
            | error e =>
                simp [Response.getJson, hjson, Prog.run_tryCatch, Prog.run_bind,
                  run_report_bind, lastRequestFailed, failed, heq, hok, JsVal.truthy,
                  fileQuery_ne_health]
            | ok data =>
                cases hprop : data.getProp "content" with
                | error e =>
                    simp [Response.getJson, hjson, getProp, hprop, Prog.run_tryCatch,
                      Prog.run_bind, run_report_bind, lastRequestFailed, failed, heq, hok,
                      JsVal.truthy, fileQuery_ne_health]
                | ok v =>
                    simp [Response.getJson, hjson, getProp, hprop, Prog.run_tryCatch,
                      Prog.run_bind, run_report_bind, lastRequestFailed, failed, heq, hok,
                      JsVal.truthy, fileQuery_ne_health]
      · simp [run_report_bind, lastRequestFailed, failed, JsVal.truthy,
          fileQuery_ne_health]

theorem writeFile_body (env : Env Call Call.Reply) (self : Claursor)
    (filePath content : JsVal) (tr : List (Event Call)) :
    BodySpec env self tr
      ((tryCatch
        (do
          let response ← fetch
            { url := self.bridgeUrl ++ "/api/file",
              method := "POST",
              headers := jsonHeaders,
              body := some (.obj [("path", filePath), ("content", content)]) }
          pure (JsVal.bool response.ok))
        (fun (error : JsError) => do
          consoleError ["Error writing file:", error.message]
          pure (JsVal.bool false))).run env tr) := by
  unfold BodySpec
  rw [run_tryCatch_request_bind]
  split
  · rename_i response heq
    cases hok : response.ok <;>
      simp [lastRequestFailed, failed, heq, hok, JsVal.truthy, file_ne_health]
  · simp [run_report_bind, lastRequestFailed, failed, JsVal.truthy, file_ne_health]

theorem executeCommand_body (env : Env Call Call.Reply) (self : Claursor)
    (command : JsVal) (tr : List (Event Call)) :
    BodySpec env self tr
      ((tryCatch
        (do
          let response ← fetch
            { url := self.bridgeUrl ++ "/api/execute",
              method := "POST",
              headers := jsonHeaders,
              body := some (.obj [("command", command)]) }
          if response.ok then
            response.getJson
          else
            pure .null)
        (fun (error : JsError) => do
          consoleError ["Error executing command:", error.message]
          pure .null)).run env tr) := by
  unfold BodySpec
  rw [run_tryCatch_request_bind]
  split
  · rename_i response heq
    cases hok : response.ok with
    | false =>
        simp [lastRequestFailed, failed, heq, hok, JsVal.truthy, execute_ne_health]
    | true =>
        cases hjson : response.json with
        | error e =>
            simp [Response.getJson, hjson, Prog.run_tryCatch, Prog.run_bind,
              run_report_bind, lastRequestFailed, failed, heq, hok, JsVal.truthy,
              execute_ne_health]
        | ok v =>
            simp [Response.getJson, hjson, Prog.run_tryCatch, Prog.run_bind,
              run_report_bind, lastRequestFailed, failed, heq, hok, JsVal.truthy,
              execute_ne_health]
  · simp [run_report_bind, lastRequestFailed, failed, JsVal.truthy, execute_ne_health]

theorem outcome_eq_of_fst {α : Type} (out : Except JsError α × List (Event Call)) (a : α)
    (h : out.1 = .ok a) : out = (.ok a, out.2) := by
  cases out
  simp_all

/-- One round of the wait: it gives an outcome, a Result only when its last
request did not fail, and it makes no request to `/health`. -/
theorem pollResultOnce_spec (env : Env Call Call.Reply) (self : Claursor)
    (actionId : JsVal) (tr : List (Event Call)) :
    ∃ found, ((pollResultOnce self actionId).run env tr).1 = .ok found ∧
      (∀ v, found = some v → ∀ acc,
        lastRequestFailed env tr ((pollResultOnce self actionId).run env tr).2 acc
          = some false) ∧
      (∀ e ∈ ((pollResultOnce self actionId).run env tr).2, ∀ req,
        e.call = .fetch req → req.url ≠ self.bridgeUrl ++ "/health") := by
  unfold pollResultOnce
  rw [run_sleep_bind]
  cases hid : actionId.toJsString with
  | error e =>
      simp [Prog.ofExcept, Prog.run_tryCatch, Prog.run_bind, run_report_bind]
      simp [Prog.run, consoleError, Prog.perform, Bind.bind, Prog.bind]
  | ok id =>
      simp only [Prog.ofExcept]
      rw [show (Prog.ret id : Lib String) = pure id from rfl, Prog.pure_bind_eq,
        run_tryCatch_request_bind]
      split
      · rename_i response heq
        cases hok : response.ok with
        | false =>
            simp [hok, result_ne_health]
        | true =>
            cases hjson : response.json with
            | error e =>
                simp [hok, Response.getJson, hjson, Prog.run_tryCatch, Prog.run_bind,
                  run_report_bind, result_ne_health]
            | ok v =>
                simp [hok, Response.getJson, hjson, Prog.run_tryCatch, Prog.run_bind,
                  run_report_bind, result_ne_health, lastRequestFailed, failed, heq]
      · simp [run_report_bind, result_ne_health]

/-- The wait for a result: it resolves to a value, falsy if its last request
failed, and it makes no request to `/health`. -/
theorem waitRounds_spec (env : Env Call Call.Reply) (self : Claursor) (actionId : JsVal)
    (n : Nat) (tr : List (Event Call)) :
    BodySpec env self tr ((waitRounds self actionId n).run env tr) := by
  induction n generalizing tr with
  | zero =>
      refine ⟨.null, rfl, ?_, ?_⟩
      · intro acc _
        rfl
      · intro e he
        simp [waitRounds] at he
  | succ n ih =>
      obtain ⟨found, hfst, hfound, hurl⟩ := pollResultOnce_spec env self actionId tr
      have hrun := outcome_eq_of_fst _ found hfst
      simp only [waitRounds]
      rw [Prog.run_bind, hrun]
      cases found with
      | some v =>
          refine ⟨v, by simp, ?_, ?_⟩
          · intro acc hacc
            simp only [Prog.run_pure, List.append_nil] at hacc
            rw [hfound v rfl acc] at hacc
            cases hacc
          · intro e he
            simp only [Prog.run_pure, List.append_nil] at he
            exact hurl e he
      | none =>
          obtain ⟨v, hv, hlast, hurl'⟩ :=
            ih (tr ++ ((pollResultOnce self actionId).run env tr).2)
          refine ⟨v, hv, ?_, ?_⟩
          · intro acc hacc
            simp only [] at hacc
            rw [lastRequestFailed_append] at hacc
            exact hlast _ hacc
          · intro e he
            rcases List.mem_append.mp he with he | he
            · exact hurl e he
            · exact hurl' e he

theorem getProp_of_truthy (v : JsVal) (key : String) (h : v.truthy = true) :
    ∃ w, v.getProp key = .ok w := by
  cases v <;> simp_all [JsVal.truthy, JsVal.getProp]

/-- The expression `result && result.success` makes no call and is falsy when
the result is. -/
theorem resultSuccess_run (env : Env Call Call.Reply) (result : JsVal)
    (tr : List (Event Call)) :
    ∃ v, (resultSuccess result).run env tr = (.ok v, []) ∧
      (result.truthy = false → v.truthy = false) := by
  unfold resultSuccess
  cases h : result.truthy with
  | false => exact ⟨result, by simp, fun _ => h⟩
  | true =>
      obtain ⟨w, hw⟩ := getProp_of_truthy result "success" h
      exact ⟨w, by simp [getProp, hw], fun h' => by cases h'⟩

/-- The body shared by the methods that enqueue an action and wait for its
result. -/
theorem enqueue_body (env : Env Call Call.Reply) (self : Claursor) (tr : List (Event Call))
    (req : Request) (hreq : req.url ≠ self.bridgeUrl ++ "/health")
    (k : JsVal → Lib JsVal)
    (hk : ∀ result tr', ∃ v, (k result).run env tr' = (.ok v, []) ∧
      (result.truthy = false → v.truthy = false))
    (fallback : JsVal) (hfallback : fallback.truthy = false) (what : String) :
    BodySpec env self tr
      ((tryCatch
        (do
          let response ← fetch req
          if response.ok then do
            let body ← response.getJson
            let action_id ← getProp body "action_id"
            let result ← _waitForActionResult self action_id
            k result
          else
            pure fallback)
        (fun (error : JsError) => do
          consoleError [what, error.message]
          pure fallback)).run env tr) := by
  unfold BodySpec
  rw [run_tryCatch_request_bind]
  split
  · rename_i response heq
    cases hok : response.ok with
    | false =>
        simp [lastRequestFailed, failed, heq, hok, hfallback, hreq]
    | true =>
        cases hjson : response.json with
        | error e =>
            simp [Response.getJson, hjson, Prog.run_tryCatch, Prog.run_bind,
              run_report_bind, lastRequestFailed, failed, heq, hok, hfallback, hreq]
        | ok body =>
            cases hprop : body.getProp "action_id" with
            | error e =>
                simp [Response.getJson, hjson, getProp, hprop, Prog.run_tryCatch,
                  Prog.run_bind, run_report_bind, lastRequestFailed, failed, heq, hok,
                  hfallback, hreq]
            | ok action_id =>
                obtain ⟨result, hres, hlast, hurl⟩ :=
                  waitRounds_spec env self action_id 10 (tr ++ [⟨.fetch req, none⟩])
                have hrun := outcome_eq_of_fst _ result hres
                obtain ⟨v, hv, hfalsy⟩ := hk result
                  (tr ++ [⟨.fetch req, none⟩] ++
                    ((waitRounds self action_id 10).run env
                      (tr ++ [⟨.fetch req, none⟩])).2)
                simp only [hok, if_true, Response.getJson, hjson, getProp, hprop,
                  Prog.ofExcept, _waitForActionResult]
                rw [show (Prog.ret body : Lib JsVal) = pure body from rfl,
                  Prog.pure_bind_eq]
                simp only [hprop]
                rw [show (Prog.ret action_id : Lib JsVal) = pure action_id from rfl,
                  Prog.pure_bind_eq, Prog.run_tryCatch, Prog.run_bind, hrun]
                simp only [hv, List.append_nil]
                refine ⟨v, rfl, ?_, ?_⟩
                · intro acc hacc
                  simp only [lastRequestFailed] at hacc
                  cases hresult : result.truthy with
                  | false => exact hfalsy hresult
                  | true =>
                      have := hlast _ hacc
                      rw [this] at hresult
                      cases hresult
                · intro e he r hr
                  rcases List.mem_cons.mp he with he | he
                  · rw [he] at hr
                    cases hr
                    exact hreq
                  · exact hurl e he r hr
  · simp [run_report_bind, lastRequestFailed, failed, hfallback, hreq]

/-- The connection check resolves to a boolean, false if its last request
failed. -/
theorem checkConnection_spec (env : Env Call Call.Reply) (self : Claursor)
    (tr : List (Event Call)) :
    ∃ b s, ((checkConnection self).run env tr).1 = .ok (b, s) ∧
      (∀ acc, lastRequestFailed env tr ((checkConnection self).run env tr).2 acc
        = some true → b = false) := by
  unfold checkConnection
  rw [run_tryCatch_request_bind]
  split
  · rename_i health hhealth
    cases hok : health.ok with
    | false => simp [lastRequestFailed, failed, hhealth, hok]
    | true =>
        simp only [if_true]
        rw [run_tryCatch_request_bind]
        split
        · rename_i contextResponse hcontext
          cases hok' : contextResponse.ok with
          | false => simp [lastRequestFailed, failed, hhealth, hok, hcontext, hok']
          | true =>
              cases hjson : contextResponse.json with
              | error e =>
                  simp [Response.getJson, hjson, Prog.run_tryCatch, Prog.run_bind,
                    run_report_bind, lastRequestFailed, failed, hhealth, hok, hcontext,
                    hok']
              | ok context =>
                  cases hroot : context.getProp "project_root" with
                  | error e =>
                      simp [Response.getJson, hjson, getProp, hroot, Prog.run_tryCatch,
                        Prog.run_bind, run_report_bind, lastRequestFailed, failed,
                        hhealth, hok, hcontext, hok']
                  | ok root =>
                      simp [Response.getJson, hjson, getProp, hroot, Prog.run_tryCatch,
                        Prog.run_bind, run_report_bind, lastRequestFailed, failed,
                        hhealth, hok, hcontext, hok']
        · simp [run_report_bind, lastRequestFailed, failed]
  · simp [run_report_bind, lastRequestFailed, failed]

/-- A guarded method resolves to a value, falsy if the last request failed;
on a connected instance it leaves the instance as it is and makes no request
to `/health`. -/
theorem guarded_spec (env : Env Call Call.Reply) (sentinel : JsVal)
    (body : Claursor → Lib JsVal) (self : Claursor) (tr : List (Event Call))
    (hsentinel : sentinel.truthy = false)
    (hbody : ∀ s tr', BodySpec env s tr' ((body s).run env tr')) :
    ∃ v s', ((guarded sentinel body self).run env tr).1 = .ok (v, s') ∧
      (lastRequestFailed env tr ((guarded sentinel body self).run env tr).2 none
        = some true → v.truthy = false) ∧
      (self.connected = true → s' = self ∧
        ∀ e ∈ ((guarded sentinel body self).run env tr).2, ∀ req,
          e.call = .fetch req → req.url ≠ self.bridgeUrl ++ "/health") := by
  unfold guarded notConnected
  cases hflag : self.connected with
  | true =>
      obtain ⟨v, hv, hlast, hurl⟩ := hbody self tr
      have hrun := outcome_eq_of_fst _ v hv
      simp only [Bool.not_true, Bool.false_eq_true, if_false, Prog.pure_bind_eq]
      rw [Prog.run_bind, hrun]
      simp only [Prog.run_pure, List.append_nil]
      exact ⟨v, self, rfl, hlast none, fun _ => ⟨rfl, hurl⟩⟩
  | false =>
      obtain ⟨b, s, hcheck, hfail⟩ := checkConnection_spec env self tr
      have hrun := outcome_eq_of_fst _ (b, s) hcheck
      simp only [Bool.not_false, if_true]
      rw [Prog.run_bind, Prog.run_bind, hrun]
      simp only [Prog.run_pure, List.append_nil]
      cases b with
      | false =>
          simp only [Bool.not_false, if_true, run_report_bind, Prog.run_pure]
          refine ⟨sentinel, s, rfl, fun _ => hsentinel, fun h => by cases h⟩
      | true =>
          obtain ⟨v, hv, hlast, hurl⟩ :=
            hbody s (tr ++ ((checkConnection self).run env tr).2)
          have hrun' := outcome_eq_of_fst _ v hv
          simp only [Bool.not_true, Bool.false_eq_true, if_false]
          rw [Prog.run_bind, hrun']
          simp only [Prog.run_pure, List.append_nil]
          refine ⟨v, s, rfl, ?_, fun h => by cases h⟩
          intro hacc
          rw [lastRequestFailed_append] at hacc
          exact hlast _ hacc

theorem openFile_guarded (self : Claursor) (filePath : JsVal) :
    openFile self filePath = guarded (.bool false) (fun self =>
      enqueueAndWait self (.obj [("type", .str "openFile"), ("path", filePath)])
        "Error opening file:") self := rfl

theorem showMessage_guarded (self : Claursor) (message messageType : JsVal) :
    showMessage self message messageType = guarded (.bool false) (fun self =>
      enqueueAndWait self
        (.obj [("type", .str "showMessage"), ("message", message),
               ("messageType", orDefault messageType (.str "info"))])
        "Error showing message:") self := rfl

theorem getCurrentFile_guarded (self : Claursor) :
    getCurrentFile self = guarded .null (fun self =>
      tryCatch
        (do
          let response ← fetch { url := self.bridgeUrl ++ "/api/context" }
          if response.ok then do
            let context ← response.getJson
            getProp context "current_file"
          else
            pure .null)
        (fun (error : JsError) => do
          consoleError ["Error getting current file:", error.message]
          pure .null)) self := rfl

theorem readFile_guarded (self : Claursor) (filePath : JsVal) :
    readFile self filePath = guarded .null (fun self =>
      tryCatch
        (do
          let path ← Prog.ofExcept filePath.toJsString
          let response ← fetch
            { url := self.bridgeUrl ++ "/api/file?path=" ++ encodeURIComponent path }
          if response.ok then do
            let data ← response.getJson
            getProp data "content"
          else
            pure .null)
        (fun (error : JsError) => do
          consoleError ["Error reading file:", error.message]
          pure .null)) self := rfl

theorem writeFile_guarded (self : Claursor) (filePath content : JsVal) :
    writeFile self filePath content = guarded (.bool false) (fun self =>
      tryCatch
        (do
          let response ← fetch
            { url := self.bridgeUrl ++ "/api/file",
              method := "POST",
              headers := jsonHeaders,
              body := some (.obj [("path", filePath), ("content", content)]) }
          pure (JsVal.bool response.ok))
        (fun (error : JsError) => do
          consoleError ["Error writing file:", error.message]
          pure (JsVal.bool false))) self := rfl

theorem executeCommand_guarded (self : Claursor) (command : JsVal) :
    executeCommand self command = guarded .null (fun self =>
      tryCatch
        (do
          let response ← fetch
            { url := self.bridgeUrl ++ "/api/execute",
              method := "POST",
              headers := jsonHeaders,
              body := some (.obj [("command", command)]) }
          if response.ok then
            response.getJson
          else
            pure .null)
        (fun (error : JsError) => do
          consoleError ["Error executing command:", error.message]
          pure .null)) self := rfl

theorem enqueueAndWait_body (env : Env Call Call.Reply) (self : Claursor)
    (action : JsVal) (what : String) (tr : List (Event Call)) :
    BodySpec env self tr ((enqueueAndWait self action what).run env tr) :=
  enqueue_body env self tr _ (actions_ne_health self.bridgeUrl) resultSuccess
    (fun result tr' => resultSuccess_run env result tr') (.bool false) rfl what

theorem getSelection_body (env : Env Call Call.Reply) (self : Claursor)
    (tr : List (Event Call)) :
    BodySpec env self tr
      ((tryCatch
        (do
          let response ← fetch
            { url := self.bridgeUrl ++ "/api/actions",
              method := "POST",
              headers := jsonHeaders,
              body := some (.obj [("type", .str "getSelection")]) }
          if response.ok then do
            let body ← response.getJson
            let action_id ← getProp body "action_id"
            let result ← _waitForActionResult self action_id
            let success ← resultSuccess result
            if success.truthy then getProp result "data" else pure .null
          else
            pure .null)
        (fun (error : JsError) => do
          consoleError ["Error getting selection:", error.message]
          pure .null)).run env tr) := by
  refine enqueue_body env self tr _ (actions_ne_health self.bridgeUrl)
    (fun result => do
      let success ← resultSuccess result
      if success.truthy then getProp result "data" else pure .null)
    ?_ .null rfl "Error getting selection:"
  intro result tr'
  obtain ⟨success, hs, hfalsy⟩ := resultSuccess_run env result tr'
  rw [Prog.run_bind, hs]
  cases hsucc : success.truthy with
  | false => exact ⟨.null, by simp [hsucc], fun _ => rfl⟩
  | true =>
      cases hres : result.truthy with
      | false =>
          rw [hfalsy hres] at hsucc
          cases hsucc
      | true =>
          obtain ⟨w, hw⟩ := getProp_of_truthy result "data" hres
          exact ⟨w, by simp [hsucc, getProp, hw], fun h => by cases h⟩

theorem invoke_of_guarded (env : Env Call Call.Reply) (m : MethodCall) (self : Claursor)
    (tr : List (Event Call)) (sentinel : JsVal) (body : Claursor → Lib JsVal)
    (hm : m.invoke self = guarded sentinel body self)
    (hsentinel : sentinel.truthy = false)
    (hbody : ∀ s tr', BodySpec env s tr' ((body s).run env tr')) :
    ∃ v s', ((m.invoke self).run env tr).1 = .ok (v, s') ∧
      (lastRequestFailed env tr ((m.invoke self).run env tr).2 none = some true →
        v.truthy = false) ∧
      (m ≠ .checkConnection → self.connected = true → s' = self ∧
        ∀ e ∈ ((m.invoke self).run env tr).2, ∀ req,
          e.call = .fetch req → req.url ≠ self.bridgeUrl ++ "/health") := by
  rw [hm]
  obtain ⟨v, s', h1, h2, h3⟩ := guarded_spec env sentinel body self tr hsentinel hbody
  exact ⟨v, s', h1, h2, fun _ => h3⟩

/-- Every public method resolves to a value, falsy if the last request of the
call failed; the methods other than `checkConnection` leave a connected instance
as it is and make no request to `/health` on it. -/
theorem invoke_spec (env : Env Call Call.Reply) (m : MethodCall) (self : Claursor)
    (tr : List (Event Call)) :
    ∃ v s', ((m.invoke self).run env tr).1 = .ok (v, s') ∧
      (lastRequestFailed env tr ((m.invoke self).run env tr).2 none = some true →
        v.truthy = false) ∧
      (m ≠ .checkConnection → self.connected = true → s' = self ∧
        ∀ e ∈ ((m.invoke self).run env tr).2, ∀ req,
          e.call = .fetch req → req.url ≠ self.bridgeUrl ++ "/health") := by
  cases m with
  | checkConnection =>
      obtain ⟨b, s, hcheck, hfail⟩ := checkConnection_spec env self tr
      have hrun := outcome_eq_of_fst _ (b, s) hcheck
      simp only [MethodCall.invoke]
      rw [Prog.run_bind, hrun]
      simp only [Prog.run_pure, List.append_nil]
      refine ⟨.bool b, s, rfl, ?_, fun h => absurd rfl h⟩
      intro hacc
      rw [hfail none hacc]
      rfl
  | getCurrentFile =>
      exact invoke_of_guarded env _ self tr _ _ (getCurrentFile_guarded self) rfl
        (fun s tr' => getCurrentFile_body env s tr')
  | getSelection =>
      exact invoke_of_guarded env _ self tr _ _ (getSelection_guarded self) rfl
        (fun s tr' => getSelection_body env s tr')
  | replaceSelection text =>
      exact invoke_of_guarded env _ self tr _ _ (replaceSelection_guarded self text) rfl
        (fun s tr' => enqueueAndWait_body env s _ _ tr')
  | readFile filePath =>
      exact invoke_of_guarded env _ self tr _ _ (readFile_guarded self filePath) rfl
        (fun s tr' => readFile_body env s filePath tr')
  | writeFile filePath content =>
      exact invoke_of_guarded env _ self tr _ _ (writeFile_guarded self filePath content)
        rfl (fun s tr' => writeFile_body env s filePath content tr')
  | openFile filePath =>
      exact invoke_of_guarded env _ self tr _ _ (openFile_guarded self filePath) rfl
        (fun s tr' => enqueueAndWait_body env s _ _ tr')
  | showMessage message messageType =>
      exact invoke_of_guarded env _ self tr _ _
        (showMessage_guarded self message messageType) rfl
        (fun s tr' => enqueueAndWait_body env s _ _ tr')
  | executeCommand command =>
      exact invoke_of_guarded env _ self tr _ _ (executeCommand_guarded self command) rfl
        (fun s tr' => executeCommand_body env s command tr')

/-- C12 as stated fails: on a connected instance, with the enqueue accepted,
the first request for the result failing with a thrown error and the second
answered with a Result that reports success, `replaceSelection` resolves to
`true` although a request of the call failed. -/
theorem failed_request_yet_true :
    (∃ e ∈ ((MethodCall.invoke (.replaceSelection (.str "x"))
          { connected := true }).run retryEnv []).2,
        isRequest e = true ∧ e.error = some ⟨"socket hang up"⟩) ∧
      ((MethodCall.invoke (.replaceSelection (.str "x"))
          { connected := true }).run retryEnv []).1
        = .ok (.bool true, { connected := true }) :=
  ⟨by decide, rfl⟩

/-- C12, amended: no public method of `Claursor` throws or rejects: whatever
the mediator does, the call resolves to a value, and the value is falsy
whenever the last request the call made failed (it threw or was answered not
ok). -/
theorem public_methods_resolve (env : Env Call Call.Reply) (tr : List (Event Call))
    (self : Claursor) (m : MethodCall) :
    ∃ v s', ((m.invoke self).run env tr).1 = .ok (v, s') ∧
      (lastRequestFailed env tr ((m.invoke self).run env tr).2 none = some true →
        v.truthy = false) := by
  obtain ⟨v, s', h1, h2, -⟩ := invoke_spec env m self tr
  exact ⟨v, s', h1, h2⟩

/-- C12 amended, at `writeFile` on a connected instance and a bridge that
answers every request with a response that is not ok. -/
theorem public_methods_resolve_witness :
    lastRequestFailed refusingEnv []
        ((MethodCall.invoke (.writeFile (.str "/a.txt") (.str "text"))
          { connected := true }).run refusingEnv []).2 none = some true ∧
      ∃ v s', ((MethodCall.invoke (.writeFile (.str "/a.txt") (.str "text"))
          { connected := true }).run refusingEnv []).1 = .ok (v, s') ∧
        (lastRequestFailed refusingEnv []
            ((MethodCall.invoke (.writeFile (.str "/a.txt") (.str "text"))
              { connected := true }).run refusingEnv []).2 none = some true →
          v.truthy = false) :=
  ⟨rfl, public_methods_resolve refusingEnv [] { connected := true }
    (.writeFile (.str "/a.txt") (.str "text"))⟩

/-- C18: the `connected` flag is sticky: on an instance whose flag is true,
every call of getCurrentFile, getSelection, replaceSelection, readFile,
writeFile, openFile, showMessage or executeCommand resolves and leaves the instance
as it is, the flag true, and makes no request to `/health`, whatever the
mediator answers. -/
theorem connected_flag_is_sticky (env : Env Call Call.Reply) (tr : List (Event Call))
    (self : Claursor) (m : MethodCall) (hm : m ≠ .checkConnection)
    (hflag : self.connected = true) :
    ∃ v s', ((m.invoke self).run env tr).1 = .ok (v, s') ∧ s'.connected = true ∧
      s' = self ∧
      ∀ e ∈ ((m.invoke self).run env tr).2, ∀ req,
        e.call = .fetch req → req.url ≠ self.bridgeUrl ++ "/health" := by
  obtain ⟨v, s', h1, -, h3⟩ := invoke_spec env m self tr
  obtain ⟨hs, hurl⟩ := h3 hm hflag
  exact ⟨v, s', h1, by rw [hs]; exact hflag, hs, hurl⟩

/-- C18, at `getSelection` on a connected instance and a bridge that answers
every request with a response that is not ok. -/
theorem connected_flag_is_sticky_witness :
    (MethodCall.getSelection ≠ MethodCall.checkConnection ∧
      ({ connected := true } : Claursor).connected = true) ∧
      ∃ v s', ((MethodCall.invoke .getSelection { connected := true }).run
          refusingEnv []).1 = .ok (v, s') ∧ s'.connected = true ∧
        s' = { connected := true } ∧
        ∀ e ∈ ((MethodCall.invoke .getSelection { connected := true }).run
            refusingEnv []).2, ∀ req,
          e.call = .fetch req →
            req.url ≠ ({ connected := true } : Claursor).bridgeUrl ++ "/health" :=
  ⟨⟨(fun h => by cases h), rfl⟩,
    connected_flag_is_sticky refusingEnv [] { connected := true } .getSelection
      (fun h => by cases h) rfl⟩

end Client

/-! ## The consumer: polling and order -/

namespace Extension

theorem pollingInv_start (w : PollingWorld) (h : PollingInv w) :
    PollingInv (startPolling w) := by
  unfold startPolling
  cases hp : w.isPolling with
  | true => simpa [hp] using h
  | false =>
      obtain ⟨htimers, -⟩ := h.2 hp
      simp [PollingInv, htimers]

theorem pollingInv_stop (w : PollingWorld) (h : PollingInv w) :
    PollingInv (stopPolling w) := by
  unfold stopPolling
  cases hp : w.isPolling with
  | false => simpa [hp] using h
  | true =>
      obtain ⟨timer, hinterval, htimers⟩ := h.1 hp
      simp [PollingInv, hinterval, htimers]

theorem pollingInv_runOps (ops : List PollingOp) (w : PollingWorld) (h : PollingInv w) :
    PollingInv (runOps ops w) := by
  induction ops generalizing w with
  | nil => exact h
  | cons op rest ih =>
      cases op with
      | start => exact ih _ (pollingInv_start w h)
      | stop => exact ih _ (pollingInv_stop w h)

/-- C15: in every state `w` reached by calls of `startPolling` and
`stopPolling`, at most one timer is active and its period is 1000 ms;
`startPolling` while not polling makes exactly one poll and installs exactly
one timer of period 1000 ms; while polling it does nothing; `stopPolling`
while polling clears the timer and makes no poll; while not polling it does
nothing. -/
theorem polling_lifecycle (ops : List PollingOp) (w : PollingWorld)
    (hw : w = runOps ops {}) :
    (w.timers.length ≤ 1 ∧ ∀ t ∈ w.timers, t.period = 1000) ∧
    (w.isPolling = false →
      (startPolling w).polls = w.polls + 1 ∧
      (startPolling w).timers = [Timer.mk w.nextHandle 1000] ∧
      (startPolling w).isPolling = true) ∧
    (w.isPolling = true → startPolling w = w) ∧
    (w.isPolling = true →
      (stopPolling w).timers = [] ∧ (stopPolling w).isPolling = false ∧
      (stopPolling w).polls = w.polls) ∧
    (w.isPolling = false → stopPolling w = w) := by
  have hinit : PollingInv {} := by simp [PollingInv]
  have hinv : PollingInv w := by
    rw [hw]
    exact pollingInv_runOps ops {} hinit
  refine ⟨?_, ?_, ?_, ?_, ?_⟩
  · cases hp : w.isPolling with
    | true =>
        obtain ⟨timer, -, htimers⟩ := hinv.1 hp
        simp [htimers, POLL_INTERVAL]
    | false =>
        obtain ⟨htimers, -⟩ := hinv.2 hp
        simp [htimers]
  · intro hp
    obtain ⟨htimers, -⟩ := hinv.2 hp
    simp [startPolling, hp, htimers, POLL_INTERVAL]
  · intro hp
    simp [startPolling, hp]
  · intro hp
    obtain ⟨timer, hinterval, htimers⟩ := hinv.1 hp
    simp [stopPolling, hp, hinterval, htimers]
  · intro hp
    simp [stopPolling, hp]

/-- C15, after the calls start, start, stop, stop, start. -/
theorem polling_lifecycle_witness :
    ((runOps [.start, .start, .stop, .stop, .start] {}).timers.length ≤ 1 ∧
      ∀ t ∈ (runOps [.start, .start, .stop, .stop, .start] {}).timers, t.period = 1000) ∧
    (runOps [.start, .start, .stop, .stop, .start] {}).timers = [Timer.mk 2 1000] ∧
    (runOps [.start, .start, .stop, .stop, .start] {}).polls = 2 ∧
    startPolling (runOps [.start, .start, .stop, .stop, .start] {})
      = runOps [.start, .start, .stop, .stop, .start] {} ∧
    (stopPolling (runOps [.start, .start, .stop, .stop, .start] {})).timers = [] :=
  ⟨(polling_lifecycle [.start, .start, .stop, .stop, .start] _ rfl).1,
    by decide, by decide,
    (polling_lifecycle [.start, .start, .stop, .stop, .start] _ rfl).2.2.1 (by decide),
    ((polling_lifecycle [.start, .start, .stop, .stop, .start] _ rfl).2.2.2.1
      (by decide)).1⟩

/-- A program that makes no `fetch` when it is run makes none before its first
awaited call either. -/
theorem start_no_fetch {α : Type} (env : Env Call Call.Reply) (p : Ext α)
    (tr : List (Event Call)) (h : fetches (p.run env tr).2 = []) :
    fetches (start env p tr).2 = [] := by
  induction p generalizing tr with
  | ret a => rfl
  | throw e => rfl
  | call c k ih =>
      simp only [Prog.run] at h
      simp only [start]
      cases c with
      | fetch req => simp [fetches] at h
      | host c =>
          split
          · rfl
          · have := ih (env tr (.host c)) _ (by simpa [fetches] using h)
            simpa [fetches] using this
      | console level args =>
          split
          · rfl
          · have := ih (env tr (.console level args)) _ (by simpa [fetches] using h)
            simpa [fetches] using this
      | processAction action =>
          split
          · rfl
          · have := ih (env tr (.processAction action)) _ (by simpa [fetches] using h)
            simpa [fetches] using this

/-- The calls a program makes before its first awaited call are the first
calls of its run. -/
theorem start_initial {α : Type} (env : Env Call Call.Reply) (p : Ext α)
    (tr : List (Event Call)) :
    (start env p tr).2.map (fun e => e.call) <+: (p.run env tr).2.map (fun e => e.call) := by
  induction p generalizing tr with
  | ret a => simp [start, Prog.run]
  | throw e => simp [start, Prog.run]
  | call c k ih =>
      simp only [start, Prog.run]
      split
      · exact ⟨_, rfl⟩
      · simp only [List.map_cons]
        exact (List.prefix_cons_inj _).mpr (ih _ _)

/-- The first half of `processAction` up to its first awaited call, for a type
that renders: the log line, then the dispatch up to its first awaited call. -/
theorem start_processActionResult (env : Env Call Call.Reply) (tr : List (Event Call))
    (action : Action) (type : String) (ht : action.type.toJsString = .ok type) :
    start env (processActionResult action) tr
      = ((start env (dispatch action (initialResult action))
            (tr ++ [processingEvent env tr action])).1,
          processingEvent env tr action ::
            (start env (dispatch action (initialResult action))
              (tr ++ [processingEvent env tr action])).2) := by
  unfold processActionResult consoleLog
  simp only [ht, Prog.ofExcept_ok_bind]
  rw [processingEvent_of_type env tr action type ht]
  rfl

/-- The call `processAction(action)` on an action of a known type gives
control back at the first awaited call of the dispatch, or when the handler
returns. -/
theorem processActionStart_known (env : Env Call Call.Reply) (action : Action)
    (tr : List (Event Call)) (h : action.type ∈ knownTypes) :
    processActionStart env action tr
      = (start env (processActionResult action) tr).2 ∧
    processActionStart env action tr
      = processingEvent env tr action ::
          (start env (dispatch action (initialResult action))
            (tr ++ [processingEvent env tr action])).2 := by
  obtain ⟨type, ht⟩ := knownType_renders action.type h
  have hstart := start_processActionResult env tr action type ht
  have hfst : processActionStart env action tr
      = (start env (processActionResult action) tr).2 := by
    unfold processActionStart
    split
    · rename_i heq
      rw [heq]
      simp [h]
    · rename_i heq
      rw [heq]
  exact ⟨hfst, by rw [hfst, hstart]⟩

/-- The dispatch on an action of a known type, up to its first awaited call:
the calls are those the amended C14 lists. -/
theorem start_dispatch_known (env : Env Call Call.Reply) (action : Action)
    (tr : List (Event Call)) (h : action.type ∈ knownTypes) :
    (start env (dispatch action (initialResult action)) tr).2 = firstCalls env action tr := by
  simp only [knownTypes, List.mem_cons, List.mem_singleton, List.not_mem_nil, or_false] at h
  rcases h with h | h | h | h | h | h | h
  · unfold dispatch firstCalls
    simp only [h, handleOpenFile]
    split <;>
      simp_all [host, Prog.await, Bind.bind, Prog.bind, MonadExcept.tryCatch, Prog.tryCatch,
        start, Call.awaited, pure]
  · unfold dispatch firstCalls
    simp only [h, handleEditFile]
    split
    · rename_i hguard
      have : (action.path.truthy && action.edits.truthy) = false := by
        rcases Bool.or_eq_true _ _ ▸ hguard with hg | hg <;> simp_all
      simp [this, start, pure]
    · simp_all [host, Prog.await, Bind.bind, Prog.bind, MonadExcept.tryCatch, Prog.tryCatch,
        start, Call.awaited, pure]
  · unfold dispatch firstCalls
    simp only [h, handleGetFileContent]
    split <;>
      simp_all [host, Prog.await, Bind.bind, Prog.bind, MonadExcept.tryCatch, Prog.tryCatch,
        start, Call.awaited, pure]
  · unfold dispatch firstCalls
    simp only [h, handleExecuteCommand]
    split <;>
      simp_all [host, Prog.await, Bind.bind, Prog.bind, MonadExcept.tryCatch, Prog.tryCatch,
        start, Call.awaited, pure]
  · unfold dispatch firstCalls messageCall
    simp only [h, handleShowMessage]
    split
    · simp_all [host, Prog.await, Bind.bind, Prog.bind, MonadExcept.tryCatch, Prog.tryCatch,
        start, Call.awaited, pure]
    · rename_i hmsg
      have hm : action.message.truthy = true := by simpa using hmsg
      simp only [hm, if_true]
      split <;> split <;>
        simp_all [host, Prog.await, Bind.bind, Prog.bind, MonadExcept.tryCatch,
          Prog.tryCatch, start, Call.awaited, pure]
  · unfold dispatch firstCalls withActiveEditor
    simp only [h, handleGetSelection]
    simp only [host, Prog.await, Bind.bind, Prog.bind, MonadExcept.tryCatch, Prog.tryCatch,
      start, Call.awaited, Bool.false_eq_true, if_false]
    cases henv : env tr (.host .activeTextEditor) with
    | error e => simp [start, pure, Prog.tryCatch, Prog.bind]
    | ok editor =>
        cases editor with
        | none => simp [start, pure, Prog.tryCatch, Prog.bind]
        | some editor =>
            cases hget : env (tr ++ [⟨.host .activeTextEditor, none⟩])
                (.host (.getText editor.document (some editor.selection))) <;>
              simp [start, pure, Prog.tryCatch, Prog.bind, Call.awaited, outcomeError, hget]
  · unfold dispatch firstCalls withActiveEditor
    simp only [h, handleReplaceSelection]
    split
    · simp_all [start, pure]
    · rename_i htext
      have ht : action.text.truthy = true := by simpa using htext
      simp only [ht, if_true]
      simp only [host, Prog.await, Bind.bind, Prog.bind, MonadExcept.tryCatch, Prog.tryCatch,
        start, Call.awaited, Bool.false_eq_true, if_false]
      cases henv : env tr (.host .activeTextEditor) with
      | error e => simp [start, pure, Prog.tryCatch, Prog.bind]
      | ok editor =>
          cases editor with
          | none => simp [start, pure, Prog.tryCatch, Prog.bind]
          | some editor =>
              simp [start, pure, Prog.tryCatch, Prog.bind, Call.awaited, outcomeError]

/-- The call `processAction(action)` on an action of a known type gives
control back before any `fetch`: the result is not posted yet. -/
theorem processActionStart_no_fetch (env : Env Call Call.Reply) (action : Action)
    (tr : List (Event Call)) (h : action.type ∈ knownTypes) :
    fetches (processActionStart env action tr) = [] := by
  obtain ⟨type, ht⟩ := knownType_renders action.type h
  obtain ⟨r, -, hnofetch, -⟩ := processActionResult_total env tr action type ht
  have hstart := start_no_fetch env (processActionResult action) tr hnofetch
  rw [(processActionStart_known env action tr h).1]
  exact hstart

theorem startEach_no_fetch (env : Env Call Call.Reply) (actions : List Action)
    (tr : List (Event Call)) (h : ∀ action ∈ actions, action.type ∈ knownTypes) :
    fetches (startEach env actions tr) = [] := by
  induction actions generalizing tr with
  | nil => rfl
  | cons a rest ih =>
      have ha := processActionStart_no_fetch env a tr (h a (List.mem_cons_self _ _))
      have hrest := ih (tr ++ processActionStart env a tr)
        (fun action hmem => h action (List.mem_cons_of_mem _ hmem))
      simp only [startEach, fetches, List.filterMap_append] at ha hrest ⊢
      rw [ha, hrest]
      rfl

/-- The calls of the first half of `processAction` are the first calls of
`processAction`. -/
theorem processActionResult_initial (env : Env Call Call.Reply) (action : Action)
    (tr : List (Event Call)) :
    ((processActionResult action).run env tr).2.map (fun e => e.call)
      <+: ((processAction action).run env tr).2.map (fun e => e.call) := by
  unfold processAction
  rw [Prog.run_bind]
  split
  · rename_i heq
    simp [heq]
  · rename_i heq
    simp [heq]

/-- C14 as stated fails: for the list of two openFile actions, the loop of
`pollForActions` logs and opens the document of the first, then logs and
opens the document of the second, and has posted no result by then: the
host-capability call of the second action is made before the result post of
the first, which the first action does make when it goes on. -/
theorem second_starts_before_first_posts :
    (startEach sampleEnv [openA, openB] []).map (fun e => e.call)
        = [.console "log" ["Processing action: openFile"],
           .host (.openTextDocument (.str "/a.txt")),
           .console "log" ["Processing action: openFile"],
           .host (.openTextDocument (.str "/b.txt"))] ∧
      fetches (startEach sampleEnv [openA, openB] []) = [] ∧
      (fetches ((processAction openA).run sampleEnv []).2).map (fun req => req.url)
        = ["http://localhost:8000/api/actions/a6/result"] :=
  ⟨rfl, rfl, by decide⟩

/-- C14, amended: within one poll the consumer calls `processAction` on the
returned actions in the order received and awaits none of the calls: each
call runs to the first `await` of its action, then the next call is made.
For an action of a known type the calls made by then are the first calls of
the whole of `processAction` on the action and no `fetch` is among them; when
the arguments the handler spreads can be spread, they are the log line and
the calls of `firstCalls`: a handler whose check passes has called its first
capability that answers with a promise, and that call is pending.  So when
the actions are of known types the loop posts no result: every action is
started before any result is posted. -/
theorem poll_starts_actions_in_order (env : Env Call Call.Reply) (tr : List (Event Call))
    (response : Response) (actions : List Action)
    (hfetch : env tr (.fetch { url := BRIDGE_SERVER_URL ++ "/api/actions" }) = .ok response)
    (hok : response.ok = true) (hjson : response.json = .ok ⟨some actions⟩)
    (hknown : ∀ action ∈ actions, action.type ∈ knownTypes) :
    invocations (pollForActions.run env tr).2 = actions ∧
      (∀ tr', fetches (startEach env actions tr') = []) ∧
      ∀ action ∈ actions, ∀ tr',
        (processActionStart env action tr').map (fun e => e.call)
            <+: ((processAction action).run env tr').2.map (fun e => e.call) ∧
          (spreadsArguments action = true →
            processActionStart env action tr'
              = processingEvent env tr' action ::
                  firstCalls env action (tr' ++ [processingEvent env tr' action])) := by
  have hrun := pollForActions_ok env tr response actions hfetch hok hjson
  refine ⟨?_, fun tr' => startEach_no_fetch env actions tr' hknown, ?_⟩
  · rw [hrun]
    split
    · have := (run_forM_processAction env actions
        (tr ++ [⟨.fetch { url := BRIDGE_SERVER_URL ++ "/api/actions" }, none⟩,
          receivedEvent env tr actions])).2
      simpa [invocations, receivedEvent] using this
    · have : actions = [] := by
        cases actions with
        | nil => rfl
        | cons a rest => simp at *
      simp [invocations, this]
  · intro action hmem tr'
    have hstart := processActionStart_known env action tr' (hknown action hmem)
    refine ⟨?_, fun _ => ?_⟩
    · rw [hstart.1]
      exact (start_initial env (processActionResult action) tr').trans
        (processActionResult_initial env action tr')
    · rw [hstart.2, start_dispatch_known env action _ (hknown action hmem)]

/-- C14 amended, at a poll answered with the two openFile actions: the loop
has logged and called `openTextDocument` for the first, then for the second,
and both calls are pending. -/
theorem poll_starts_actions_in_order_witness :
    (twoOpenEnv [] (.fetch { url := BRIDGE_SERVER_URL ++ "/api/actions" })
        = .ok { ok := true, json := .ok ⟨some [openA, openB]⟩ } ∧
      (∀ action ∈ [openA, openB],
        action.type ∈ knownTypes ∧ spreadsArguments action = true) ∧
      startEach twoOpenEnv [openA, openB] []
        = [⟨.console "log" ["Processing action: openFile"], none⟩,
           ⟨.host (.openTextDocument (.str "/a.txt")), none⟩,
           ⟨.console "log" ["Processing action: openFile"], none⟩,
           ⟨.host (.openTextDocument (.str "/b.txt")), none⟩]) ∧
    invocations (pollForActions.run twoOpenEnv []).2 = [openA, openB] ∧
      (∀ tr', fetches (startEach twoOpenEnv [openA, openB] tr') = []) ∧
      ∀ action ∈ [openA, openB], ∀ tr',
        (processActionStart twoOpenEnv action tr').map (fun e => e.call)
            <+: ((processAction action).run twoOpenEnv tr').2.map (fun e => e.call) ∧
          (spreadsArguments action = true →
            processActionStart twoOpenEnv action tr'
              = processingEvent twoOpenEnv tr' action ::
                  firstCalls twoOpenEnv action
                    (tr' ++ [processingEvent twoOpenEnv tr' action])) :=
  ⟨⟨rfl, by decide, rfl⟩,
    poll_starts_actions_in_order twoOpenEnv [] _ [openA, openB] rfl rfl rfl (by decide)⟩

end Extension

end Claursor
